import Mathlib

/-!
Verification development for the `sktm` patch-testing orchestrator.

The definitions below are a shallow embedding of the Python sources:

* `sktm/jenkins.py`  — CI result classification (`JenkinsProject.get_result`,
  `JenkinsProject.get_baseretcode`);
* `sktm/db.py`       — the SQLite-backed store (`SktDb`), modelled as pure
  record updates over lists of table rows;
* `sktm/patchwork.py`— series aggregation for the XML-RPC interface
  (`PatchworkV1Project.__parse_patch` / `get_new_patchsets`) and the REST
  interface (`PatchworkV2Project.__get_series_from_url`);
* `sktm/__init__.py` — the `watcher` orchestrator (`check_baseline`,
  `filter_patchsets`).

External effects are made explicit parameters: wall-clock time, the Jenkins
job submission, the subprocess exit status of the filter program, and the
outputs of the fixed regular expressions applied to patch names and message
IDs (`skip.search`, the `[i/N]` position pattern, the message-ID fragment
pattern) are passed in as functions or values, and the control flow around
them is translated directly from the source.
-/

/-- Modelled from the spec: `sktm/misc.py` (the `TestResult` enumeration used
throughout the sources) is not present under `src/`.  Section 4.1 of the spec
lists the seven ordered outcome categories, SUCCESS being best (lowest
ordinal), in the order SUCCESS, MERGE_FAILURE, BUILD_FAILURE, PUBLISH_FAILURE,
TEST_FAILURE, BASELINE_FAILURE, ERROR. -/
inductive TestResult where
  | SUCCESS
  | MERGE_FAILURE
  | BUILD_FAILURE
  | PUBLISH_FAILURE
  | TEST_FAILURE
  | BASELINE_FAILURE
  | ERROR
deriving DecidableEq, Repr

/-- Integer value of a `TestResult`, as used by the `IntEnum` for numeric
comparison and for storage in the `testrun` table (`result.value`). -/
def TestResult.value : TestResult → Nat
  | .SUCCESS => 0
  | .MERGE_FAILURE => 1
  | .BUILD_FAILURE => 2
  | .PUBLISH_FAILURE => 3
  | .TEST_FAILURE => 4
  | .BASELINE_FAILURE => 5
  | .ERROR => 6

/-- One step record of a Jenkins build resultset: its `status` attribute and,
for "run" steps, the value of the `baseretcode` key of its JSON-formatted
stdout (absent when the key, or any JSON output, is missing). -/
structure StepInfo where
  status : String
  baseretcode : Option Int
deriving DecidableEq, Repr

/-- A completed Jenkins build: the overall status string returned by
`build.get_status()` and the resultset as a list of `(result_key, step)`
pairs, in iteration order. -/
structure BuildInfo where
  status : String
  resultset : List (String × StepInfo)
deriving DecidableEq, Repr

/-- Values of the `status` key for all steps matching `stepname`
(`JenkinsProject.__get_data_list(buildid, stepname, "status")`). -/
def data_list_status (b : BuildInfo) (stepname : String) : List String :=
  (b.resultset.filter (fun kv => kv.1 = stepname)).map (fun kv => kv.2.status)

/-- Values of the `baseretcode` JSON key, with default `d`, for all steps
matching `stepname` (`JenkinsProject.__get_cfg_data_list`). -/
def cfg_data_list_baseretcode (b : BuildInfo) (stepname : String) (d : Int) :
    List Int :=
  (b.resultset.filter (fun kv => kv.1 = stepname)).map
    (fun kv => kv.2.baseretcode.getD d)

/-- Maximum of a value list as computed by `JenkinsProject.__get_cfg_data_max`
via `reduce(lambda x, y: (x if x > y else y), ...)`; `none` models the
`TypeError` Python's `reduce` raises on an empty list. -/
def cfg_data_max (l : List Int) : Option Int :=
  match l with
  | [] => none
  | x :: xs => some (xs.foldl (fun a c => if a > c then a else c) x)

/-- Worst baseline-retest return code across all "run" steps
(`JenkinsProject.get_baseretcode`). -/
def get_baseretcode (b : BuildInfo) : Option Int :=
  cfg_data_max (cfg_data_list_baseretcode b "skt.cmd_run" 0)

/-- Whether some step matching `stepname` has status FAILED or REGRESSION;
this is the set-intersection test
`set(__get_data_list(buildid, step, "status")) & set(["FAILED", "REGRESSION"])`
of `JenkinsProject.get_result`. -/
def step_failed (b : BuildInfo) (stepname : String) : Bool :=
  (data_list_status b stepname).any (fun s => s = "FAILED" || s = "REGRESSION")

/-- Result classification of a completed build (`JenkinsProject.get_result`).
The loop over `step_failure_result_list` is unrolled in its fixed order:
`skt.cmd_merge`, `skt.cmd_build`, `skt.cmd_run`.  Every branch that reaches
the end of the function returns ERROR. -/
def get_result (b : BuildInfo) : TestResult :=
  if b.status = "SUCCESS" then
    TestResult.SUCCESS
  else if b.status = "UNSTABLE" then
    if step_failed b "skt.cmd_merge" then TestResult.MERGE_FAILURE
    else if step_failed b "skt.cmd_build" then TestResult.BUILD_FAILURE
    else if step_failed b "skt.cmd_run" then TestResult.TEST_FAILURE
    else TestResult.ERROR
  else
    TestResult.ERROR

/-- Build used to refute the claimed BASELINE_FAILURE classification: overall
UNSTABLE, all steps PASSED, and a nonzero baseline-retest code on the run
step. -/
def build_unstable_baseretcode : BuildInfo :=
  { status := "UNSTABLE",
    resultset :=
      [("skt.cmd_merge", { status := "PASSED", baseretcode := none }),
       ("skt.cmd_build", { status := "PASSED", baseretcode := none }),
       ("skt.cmd_run", { status := "PASSED", baseretcode := some 1 })] }

/-- Build with overall status FAILURE and a FAILED merge step, used to show
that step inspection only happens for UNSTABLE builds. -/
def build_failure_merge_failed : BuildInfo :=
  { status := "FAILURE",
    resultset := [("skt.cmd_merge", { status := "FAILED", baseretcode := none })] }

/-- Build with overall UNSTABLE and FAILED merge, build and run steps, used
to witness the merge-first priority. -/
def build_unstable_all_failed : BuildInfo :=
  { status := "UNSTABLE",
    resultset :=
      [("skt.cmd_merge", { status := "FAILED", baseretcode := none }),
       ("skt.cmd_build", { status := "FAILED", baseretcode := none }),
       ("skt.cmd_run", { status := "FAILED", baseretcode := some 1 })] }

/-- Row of the `baserepo` table: `id INTEGER PRIMARY KEY, url TEXT UNIQUE`. -/
structure RepoRow where
  id : Nat
  url : String
deriving DecidableEq, Repr

/-- Row of the `patchsource` table:
`id INTEGER PRIMARY KEY, baseurl TEXT, project_id INTEGER`. -/
structure SourceRow where
  id : Nat
  baseurl : String
  project_id : Nat
deriving DecidableEq, Repr

/-- Row of the `pendingpatches` table:
`id INTEGER PRIMARY KEY, pdate TEXT, patchsource_id INTEGER,
timestamp INTEGER`.  Note the patch ID alone is the primary key. -/
structure PendingRow where
  id : Nat
  pdate : String
  patchsource_id : Nat
  timestamp : Int
deriving DecidableEq, Repr

/-- Row of the `testrun` table:
`id INTEGER PRIMARY KEY, result_id INTEGER, build_id INTEGER`.  The stored
`result_id` is `result.value` of the committed `TestResult`. -/
structure TestrunRow where
  id : Nat
  result_id : Nat
  build_id : Nat
deriving DecidableEq, Repr

/-- Row of the `baseline` table: repo reference, commit hash, commit date and
test-run reference.  The surrogate `id INTEGER PRIMARY KEY` column is not used
by any query modelled here and is omitted. -/
structure BaselineRow where
  baserepo_id : Nat
  commitid : String
  commitdate : Int
  testrun_id : Nat
deriving DecidableEq, Repr

/-- State of the SQLite database behind `SktDb`.  Tables are row lists in
insertion order; the `next_*` counters model SQLite's monotone rowid
allocation for the three tables whose fresh ids matter here. -/
structure Db where
  baserepo : List RepoRow
  patchsource : List SourceRow
  pendingpatches : List PendingRow
  testrun : List TestrunRow
  baseline : List BaselineRow
  next_baserepo_id : Nat
  next_patchsource_id : Nat
  next_testrun_id : Nat
deriving DecidableEq, Repr

/-- Fresh database, as produced by `SktDb.__createdb`. -/
def Db.empty : Db :=
  { baserepo := [], patchsource := [], pendingpatches := [], testrun := [],
    baseline := [], next_baserepo_id := 1, next_patchsource_id := 1,
    next_testrun_id := 1 }

/-- Lookup-or-create of a repo id (`SktDb.__get_repoid` backed by
`SktDb.__create_repoid`); creation inserts a fresh row and returns its
rowid. -/
def get_repoid (db : Db) (baserepo : String) : Db × Nat :=
  match db.baserepo.find? (fun r => r.url = baserepo) with
  | some r => (db, r.id)
  | none =>
      let rid := db.next_baserepo_id
      ({ db with baserepo := db.baserepo ++ [{ id := rid, url := baserepo }],
                 next_baserepo_id := rid + 1 }, rid)

/-- Lookup-or-create of a patch-source id (`SktDb.__get_sourceid` backed by
`SktDb.__create_sourceid`). -/
def get_sourceid (db : Db) (baseurl : String) (project_id : Nat) : Db × Nat :=
  match db.patchsource.find?
      (fun s => s.baseurl = baseurl ∧ s.project_id = project_id) with
  | some s => (db, s.id)
  | none =>
      let sid := db.next_patchsource_id
      ({ db with
          patchsource := db.patchsource ++
            [{ id := sid, baseurl := baseurl, project_id := project_id }],
          next_patchsource_id := sid + 1 }, sid)

/-- Insertion of a test run (`SktDb.__commit_testrun`); stores
`result.value` and returns the fresh rowid. -/
def commit_testrun (db : Db) (result : TestResult) (buildid : Nat) :
    Db × Nat :=
  let tid := db.next_testrun_id
  ({ db with
      testrun := db.testrun ++
        [{ id := tid, result_id := result.value, build_id := buildid }],
      next_testrun_id := tid + 1 }, tid)

/-- Join of `baseline` and `testrun` on `baseline.testrun_id = testrun.id`
restricted to the given repo id and commit hash, as in the SELECT of
`SktDb.__get_baselineresult`.  Uniqueness of `testrun.id` (a primary key)
makes the join a `find?`. -/
def baseline_join (db : Db) (rid : Nat) (commithash : String) :
    List (BaselineRow × TestrunRow) :=
  (db.baseline.filter
      (fun r => r.commitid = commithash ∧ r.baserepo_id = rid)).filterMap
    (fun r => (db.testrun.find? (fun t => t.id = r.testrun_id)).map
      (fun t => (r, t)))

/-- The row selected by `ORDER BY baseline.commitdate DESC LIMIT 1`: a row of
maximal commit date (SQLite leaves the choice among ties unspecified; this
picks the first such row in table order). -/
def pick_latest : List (BaselineRow × TestrunRow) →
    Option (BaselineRow × TestrunRow)
  | [] => none
  | x :: xs =>
      some (xs.foldl (fun a c => if c.1.commitdate > a.1.commitdate then c else a) x)

/-- Stored result of the baseline test run for a repo URL and commit hash
(`SktDb.__get_baselineresult`).  The source wraps the stored integer back
into the enumeration with `sktm.tresult(...)`; since `value` is injective the
raw stored integer is returned here, and comparisons against it use
`TestResult.value`, which is exactly the `IntEnum` comparison of the
source. -/
def get_baselineresult (db : Db) (baserepo commithash : String) :
    Db × Option Nat :=
  let (db', rid) := get_repoid db baserepo
  (db', (pick_latest (baseline_join db' rid commithash)).map
    (fun rt => rt.2.result_id))

/-- Convenience accessor for the stored baseline result (second component of
`get_baselineresult`). -/
def stored_result (db : Db) (baserepo commithash : String) : Option Nat :=
  (get_baselineresult db baserepo commithash).2

/-- Baseline update (`SktDb.update_baseline`): always commit a test run,
then insert a baseline row when none exists for the (repo, commit) pair, or
redirect the existing rows' test-run reference when the new result is
numerically greater than or equal to the previous one; otherwise leave the
baseline table unchanged. -/
def update_baseline (db : Db) (baserepo commithash : String)
    (commitdate : Int) (result : TestResult) (build_id : Nat) : Db :=
  let (db1, baserepo_id) := get_repoid db baserepo
  let (db2, testrun_id) := commit_testrun db1 result build_id
  let (db3, prev_res) := get_baselineresult db2 baserepo commithash
  match prev_res with
  | none =>
      { db3 with
          baseline := db3.baseline ++
            [{ baserepo_id := baserepo_id, commitid := commithash,
               commitdate := commitdate, testrun_id := testrun_id }] }
  | some prev =>
      if result.value ≥ prev then
        { db3 with
            baseline := db3.baseline.map (fun r =>
              if r.commitid = commithash ∧ r.baserepo_id = baserepo_id then
                { r with testrun_id := testrun_id }
              else r) }
      else db3

/-- Effect of SQLite's `INSERT OR REPLACE` into `pendingpatches`: the
conflicting row (same primary key `id`) is deleted and the new row
inserted. -/
def insert_or_replace_pending (tbl : List PendingRow) (row : PendingRow) :
    List PendingRow :=
  tbl.filter (fun r => ¬ r.id = row.id) ++ [row]

/-- Pending-list insertion (`SktDb.set_patchset_pending`): one
`INSERT OR REPLACE` per `(patch_id, patch_date)` tuple, all with the current
timestamp `tstamp` (the source's `int(time.time())`, passed explicitly). -/
def set_patchset_pending (db : Db) (baseurl : String) (project_id : Nat)
    (series_data : List (Nat × String)) (tstamp : Int) : Db :=
  let (db', sourceid) := get_sourceid db baseurl project_id
  { db' with
      pendingpatches := series_data.foldl
        (fun tbl pd =>
          insert_or_replace_pending tbl
            { id := pd.1, pdate := pd.2, patchsource_id := sourceid,
              timestamp := tstamp })
        db'.pendingpatches }

/-- Expired pending patches (`SktDb.get_expired_pending_patches`): ids of
pending rows of the given source whose timestamp is strictly older than
`now - exptime`; `now` models the source's `int(time.time())` and the
default expiry time is the source's default argument `exptime=86400`. -/
def get_expired_pending_patches (db : Db) (baseurl : String)
    (project_id : Nat) (now : Int) (exptime : Int := 86400) :
    Db × List Nat :=
  let (db', sourceid) := get_sourceid db baseurl project_id
  let tstamp := now - exptime
  (db', (db'.pendingpatches.filter
      (fun r => r.patchsource_id = sourceid ∧ r.timestamp < tstamp)).map
    (fun r => r.id))

/-- Well-formedness of the store maintained by SQLite's primary keys and
foreign keys: test-run rowids stay below the allocation counter and every
baseline row references an existing test run. -/
structure DbWF (db : Db) : Prop where
  testrun_lt : ∀ t ∈ db.testrun, t.id < db.next_testrun_id
  baseline_ref : ∀ r ∈ db.baseline, ∃ t ∈ db.testrun, t.id = r.testrun_id

/-- Store with one pending patch (id 101) inserted at timestamp 0, used for
the expiry-threshold counterexample. -/
def db_pending_example : Db :=
  set_patchset_pending Db.empty "url" 1 [(101, "2018-01-01")] 0

/-- Well-formedness of the patch-source table maintained by its primary key:
distinct rowids, all below the allocation counter. -/
structure SrcWF (db : Db) : Prop where
  nodup : (db.patchsource.map (fun s => s.id)).Nodup
  lt : ∀ s ∈ db.patchsource, s.id < db.next_patchsource_id

/-- URL join helper (`sktm.join_with_slash`): strip slashes at the joints,
join by single slashes, and keep a trailing slash when the last suffix had
one. -/
def join_with_slash (base : String) (suffix : List String) : String :=
  let parts := [base.dropRightWhile (fun c => c = '/')] ++
    suffix.map (fun a => (a.dropWhile (fun c => c = '/')).dropRightWhile
      (fun c => c = '/'))
  let ending := if (suffix.getLast?.map (fun a => a.endsWith "/")).getD false
    then "/" else ""
  String.intercalate "/" parts ++ ending

/-- Summary of an mbox-based Patchwork object
(`sktm.patchwork.ObjectSummary`): object URL, mbox URL suffix, "Date" header
value, and the patch ID for patch objects (absent for cover letters from the
REST interface). -/
structure ObjectSummary where
  url : String
  mbox_sfx : String
  date : String
  patch_id : Option Nat
deriving DecidableEq, Repr

/-- Mbox URL of an object (`ObjectSummary.get_mbox_url`). -/
def ObjectSummary.get_mbox_url (o : ObjectSummary) : String :=
  join_with_slash o.url [o.mbox_sfx]

/-- A series summary (`sktm.patchwork.SeriesSummary`): optional message id
and subject, set of involved e-mail addresses, optional cover letter, and
the ordered patch list. -/
structure SeriesSummary where
  message_id : Option String
  subject : Option String
  email_addr_set : Finset String
  cover_letter : Option ObjectSummary
  patch_list : List ObjectSummary
deriving DecidableEq

/-- Patch URLs of a series in apply order
(`SeriesSummary.get_patch_url_list`). -/
def SeriesSummary.get_patch_url_list (s : SeriesSummary) : List String :=
  s.patch_list.map (fun p => p.url)

/-- Patch mbox URLs of a series in apply order
(`SeriesSummary.get_patch_mbox_url_list`). -/
def SeriesSummary.get_patch_mbox_url_list (s : SeriesSummary) : List String :=
  s.patch_list.map (fun p => p.get_mbox_url)

/-- Patch id/date tuples of a series (`SeriesSummary.get_patch_info_list`);
for patch objects the patch id is present. -/
def SeriesSummary.get_patch_info_list (s : SeriesSummary) :
    List (Option Nat × String) :=
  s.patch_list.map (fun p => (p.patch_id, p.date))

/-- Job type of an outstanding build (`sktm.jtype`). -/
inductive JType where
  | BASELINE
  | PATCHWORK
deriving DecidableEq, Repr

/-- State of the orchestrator relevant to baseline submission
(`sktm.watcher`): the database, the baseline parameters set by
`set_baseline`, and the list `pj` of outstanding builds, each a triple of
job type, build number and the index of the originating Patchwork interface
(`None` for baseline builds). -/
structure Watcher where
  db : Db
  baserepo : String
  baseref : String
  cfgurl : Option String
  pj : List (JType × Nat × Option Nat)
deriving DecidableEq

/-- Baseline submission (`watcher.check_baseline`): unconditionally submit a
Jenkins build of (baserepo, baseref, cfgurl, makeopts) — the returned build
number is the parameter `bid` — and append it to the outstanding list as
(BASELINE, bid, None).  No check of the database precedes the submission. -/
def check_baseline (w : Watcher) (bid : Nat) : Watcher :=
  { w with pj := w.pj ++ [(JType.BASELINE, bid, none)] }

/-- Watcher whose baseline ref is a commit hash already recorded as tested
(a SUCCESS baseline row exists for it). -/
def watcher_already_tested : Watcher :=
  { db := update_baseline Db.empty "git://r" "abc" 1 TestResult.SUCCESS 1,
    baserepo := "git://r", baseref := "abc", cfgurl := none, pj := [] }

/-- Argument vector the filter program is invoked with
(`watcher.filter_patchsets`): the filter path, then `--cover` and the cover
letter's mbox URL when a cover letter is present, then the patch mbox URLs
in apply order. -/
def filter_argv (patch_filter : String) (s : SeriesSummary) : List String :=
  [patch_filter] ++
    (match s.cover_letter with
     | some c => ["--cover", c.get_mbox_url]
     | none => []) ++
    s.get_patch_mbox_url_list

/-- The command string shown in filter error messages: the argument vector
joined by single spaces (`" ".join(argv)`). -/
def cmd_str (argv : List String) : String :=
  String.intercalate " " argv

/-- Loop body of `watcher.filter_patchsets`: process each series in order,
accumulating the ready and dropped lists; exit status 0 keeps, 1 drops, 127
aborts with "failed", a negative status aborts with the signal message, any
other status aborts with the invalid-status message.  `call` is the
subprocess exit status of `subprocess.call(argv)`. -/
def filter_patchsets_go (call : List String → Int) (pf : String) :
    List SeriesSummary → List SeriesSummary → List SeriesSummary →
    Except String (List SeriesSummary × List SeriesSummary)
  | [], ready, dropped => .ok (ready, dropped)
  | s :: rest, ready, dropped =>
      let argv := filter_argv pf s
      let cmd := String.intercalate " " argv
      let status := call argv
      if status = 0 then
        filter_patchsets_go call pf rest (ready ++ [s]) dropped
      else if status = 1 then
        filter_patchsets_go call pf rest ready (dropped ++ [s])
      else if status = 127 then
        Except.error (s!"Filter command {cmd} failed")
      else if status < 0 then
        Except.error
          (s!"Filter command {cmd} was terminated by signal {(-status)}")
      else
        Except.error
          (s!"Filter command {cmd} returned invalid status {status}")

/-- Series filtering (`watcher.filter_patchsets`): with no filter program
configured every series is ready; otherwise run the filter program over each
series in order.  A raised exception is modelled as `Except.error` with the
exception's message. -/
def filter_patchsets (patch_filter : Option String)
    (call : List String → Int) (series_summary_list : List SeriesSummary) :
    Except String (List SeriesSummary × List SeriesSummary) :=
  match patch_filter with
  | some pf => filter_patchsets_go call pf series_summary_list [] []
  | none => Except.ok (series_summary_list, [])

/-- Concrete one-patch series for the filter witnesses. -/
def series_a : SeriesSummary :=
  { message_id := some "m", subject := some "s", email_addr_set := ∅,
    cover_letter := none,
    patch_list := [{ url := "http://pw/patch/1", mbox_sfx := "mbox",
                     date := "2018-06-04T00:00:00", patch_id := some 1 }] }

/-- Argument vector the filter program `filt` receives for `series_a`. -/
def argv_a : List String := filter_argv "filt" series_a

/-- Filter program stub always exiting 0. -/
def call0 : List String → Int := fun _ => 0

/-- Filter program stub always exiting 127. -/
def call127 : List String → Int := fun _ => 127

/-- Filter program stub terminated by signal 9 (status -9). -/
def callsig : List String → Int := fun _ => -9

/-- Filter program stub exiting with the reserved status 3. -/
def call3 : List String → Int := fun _ => 3

/-- Parsed JSON of one patch inside a REST series object: its id, display
name and date. -/
structure PatchJson where
  id : Nat
  name : String
  date : String
deriving DecidableEq, Repr

/-- Parsed JSON of a cover letter: `mbox_match` is group 1 of the regex
`^(.*)/mbox/?$` applied to the cover's mbox URL (absent when the regex does
not match), plus the date. -/
structure CoverJson where
  mbox_match : Option String
  date : String
deriving DecidableEq, Repr

/-- Parsed JSON of one series object returned by the REST series
endpoint. -/
structure SeriesJson where
  id : Nat
  name : String
  received_all : Bool
  cover_letter : Option CoverJson
  patches : List PatchJson
deriving DecidableEq, Repr

/-- Per-patch step of the REST series loop
(`PatchworkV2Project.__get_series_from_url`): a patch whose name matches a
skip pattern is excluded (`continue`); otherwise the summary's message id,
subject and e-mail set are updated from the patch's headers and the patch is
appended. -/
def series_patches_step (skip : String → Bool) (hdr : Nat → String × String)
    (emails : Nat → Finset String) (mbox_sfx baseurl : String)
    (ss : SeriesSummary) (patch : PatchJson) : SeriesSummary :=
  if skip patch.name then ss
  else
    { ss with
        message_id := some (hdr patch.id).1,
        subject := some (hdr patch.id).2,
        email_addr_set := ss.email_addr_set ∪ emails patch.id,
        patch_list := ss.patch_list ++
          [{ url := join_with_slash baseurl ["patch", toString patch.id],
             mbox_sfx := mbox_sfx, date := patch.date,
             patch_id := some patch.id }] }

/-- Series-summary construction of the REST interface
(`PatchworkV2Project.__get_series_from_url`) over the parsed JSON of one
response page: incomplete series (`received_all` false) and series whose own
name matches a skip pattern are dropped; remaining series get a summary
whose cover letter comes from the mbox regex match, with skip-matching
patches excluded; the summary is emitted unless it ended up empty.  `skip`
is the compiled skip-pattern search, `hdr` and `emails` are the values the
mbox header fetches return per patch id. -/
def series_from_data (skip : String → Bool) (hdr : Nat → String × String)
    (emails : Nat → Finset String) (mbox_sfx baseurl : String)
    (sdata : List SeriesJson) : List SeriesSummary :=
  sdata.foldl (fun series_list series =>
    if ¬ series.received_all then series_list
    else if skip series.name then series_list
    else
      let s0 : SeriesSummary :=
        { message_id := none, subject := none, email_addr_set := ∅,
          cover_letter := series.cover_letter.bind (fun cover =>
            cover.mbox_match.map (fun stem =>
              { url := stem, mbox_sfx := mbox_sfx, date := cover.date,
                patch_id := none })),
          patch_list := [] }
      let series_summary := series.patches.foldl
        (series_patches_step skip hdr emails mbox_sfx baseurl) s0
      if series_summary.patch_list.isEmpty then series_list
      else series_list ++ [series_summary]) []

/-- Association-list lookup modelling Python dict access (first match). -/
def aget {κ α : Type} [DecidableEq κ] (k : κ) : List (κ × α) → Option α
  | [] => none
  | (k2, v) :: rest => if k2 = k then some v else aget k rest

/-- Association-list update modelling Python dict assignment: replace in
place when the key exists, append otherwise. -/
def aset {κ α : Type} [DecidableEq κ] (k : κ) (v : α) :
    List (κ × α) → List (κ × α)
  | [] => [(k, v)]
  | (k2, v2) :: rest =>
      if k2 = k then (k, v) :: rest else (k2, v2) :: aset k v rest

/-- An XML-RPC patch object, with the fields `__parse_patch` reads. -/
structure PatchRpc where
  id : Nat
  name : String
  msgid : String
  submitter_id : Nat
  date : String
deriving DecidableEq, Repr

/-- Environment of the XML-RPC aggregator: the outputs of the fixed regular
expressions (`skip.search` on patch names; the `[i/N]` position pattern,
returning (position, total); the message-ID series-fragment pattern) and of
the mbox header fetches, plus the interface's mbox suffix and base URL. -/
structure PW1Env where
  skip : String → Bool
  parse_pos : String → Option (Nat × Nat)
  mid_frag : String → Option String
  hdr : Nat → String × String
  emails : Nat → Finset String
  mbox_sfx : String
  baseurl : String

/-- Mutable state of `PatchworkV1Project`: the accumulation dictionary of
in-progress series keyed by derived series id (each series a dictionary of
patches keyed by position), the cover-letter dictionary, and the maximum
seen patch id. -/
structure PW1State where
  series : List (String × List (Nat × PatchRpc))
  covers : List (String × PatchRpc)
  lastpatch : Nat

/-- Derived series id of a patch (`__parse_patch`): a fragment of the
message ID when the regex matches, else submitter id and series length. -/
def derived_seriesid (env : PW1Env) (patch : PatchRpc) (mpatch : Nat) :
    String :=
  match env.mid_frag patch.msgid with
  | some frag => frag
  | none => s!"{patch.submitter_id}_{mpatch}"

/-- Update of the maximum seen patch id (`if pid > self.lastpatch`). -/
def bump_lastpatch (st : PW1State) (pid : Nat) : PW1State :=
  if pid > st.lastpatch then { st with lastpatch := pid } else st

/-- Object summary built for one patch of an emitted series:
`ObjectSummary(self._get_patch_url(patch), self._get_mbox_url_sfx(),
patch.get("date").replace(" ", "T"), pid)`. -/
def patch_obj_summary (env : PW1Env) (patch : PatchRpc) : ObjectSummary :=
  { url := join_with_slash env.baseurl ["patch", toString patch.id],
    mbox_sfx := env.mbox_sfx,
    date := patch.date.replace " " "T",
    patch_id := some patch.id }

/-- Per-position step of the emission loop of `__parse_patch`: look the
patch up at the position and accumulate headers, e-mails and the patch
summary (the lookup cannot fail for positions drawn from the dictionary's
keys; the fallthrough keeps the accumulator). -/
def build_step (env : PW1Env) (m : List (Nat × PatchRpc))
    (acc : SeriesSummary) (cpatch : Nat) : SeriesSummary :=
  match aget cpatch m with
  | some patch =>
      { acc with
          message_id := some (env.hdr patch.id).1,
          subject := some (env.hdr patch.id).2,
          email_addr_set := acc.email_addr_set ∪ env.emails patch.id,
          patch_list := acc.patch_list ++ [patch_obj_summary env patch] }
  | none => acc

/-- Emission of a completed series by `__parse_patch`: start from the cover
letter (when one was remembered for the series id), then fold the patches
in sorted position order (`for cpatch in sorted(self.series[seriesid].keys())`). -/
def build_series_summary (env : PW1Env) (covers : List (String × PatchRpc))
    (seriesid : String) (m : List (Nat × PatchRpc)) : SeriesSummary :=
  let base : SeriesSummary :=
    { message_id := none, subject := none, email_addr_set := ∅,
      cover_letter := (aget seriesid covers).map (fun cover =>
        { url := join_with_slash env.baseurl ["patch", toString cover.id],
          mbox_sfx := env.mbox_sfx,
          date := cover.date.replace " " "T",
          patch_id := some cover.id }),
      patch_list := [] }
  (List.insertionSort (· ≤ ·) (m.map Prod.fst)).foldl (build_step env m) base

/-- Accumulation of one XML-RPC patch object
(`PatchworkV1Project.__parse_patch`), returning the updated state and the
emitted series summary, if any.  The source mutates `self.series` by first
creating an empty dictionary for an unseen series id and then storing into
it; the combined `aset` below is observationally the same.  Note the
duplicate-position branch returns early without updating `lastpatch`,
exactly as the source does. -/
def parse_patch (env : PW1Env) (st : PW1State) (patch : PatchRpc) :
    PW1State × Option SeriesSummary :=
  let pid := patch.id
  let pname := patch.name
  if env.skip pname then
    (bump_lastpatch st pid, none)
  else
    match env.parse_pos pname with
    | some (cpatch, mpatch) =>
        let seriesid := derived_seriesid env patch mpatch
        if cpatch = 0 then
          (bump_lastpatch
            { st with covers := aset seriesid patch st.covers } pid, none)
        else if 1 ≤ cpatch ∧ cpatch ≤ mpatch then
          let cur := (aget seriesid st.series).getD []
          if (aget cpatch cur).isSome then
            (st, none)
          else
            let cur2 := aset cpatch patch cur
            let st2 := { st with series := aset seriesid cur2 st.series }
            let result :=
              if cur2.length = mpatch then
                some (build_series_summary env st2.covers seriesid cur2)
              else none
            (bump_lastpatch st2 pid, result)
        else
          (bump_lastpatch st pid, none)
    | none =>
        let summary : SeriesSummary :=
          { message_id := some (env.hdr pid).1,
            subject := some (env.hdr pid).2,
            email_addr_set := env.emails pid,
            cover_letter := none,
            patch_list := [patch_obj_summary env patch] }
        (bump_lastpatch st pid, some summary)

/-- Polling step of the XML-RPC interface
(`PatchworkV1Project.get_new_patchsets`): feed each fetched patch through
`__parse_patch` in order, collecting the emitted series summaries. -/
def get_new_patchsets (env : PW1Env) (st : PW1State)
    (patches : List PatchRpc) : PW1State × List SeriesSummary :=
  patches.foldl
    (fun acc p =>
      let r := parse_patch env acc.1 p
      (r.1, match r.2 with
            | some s => acc.2 ++ [s]
            | none => acc.2))
    (st, [])

/-- Concrete polling environment for a two-patch series with no skip
patterns: names `P1`, `P2` carry positions `[1/2]`, `[2/2]`, and the message
id regex always yields the fragment `sidX`. -/
def env0c1 : PW1Env :=
  { skip := fun _ => false,
    parse_pos := fun n =>
      if n = "P1" then some (1, 2)
      else if n = "P2" then some (2, 2)
      else none,
    mid_frag := fun _ => some "sidX",
    hdr := fun i => ("m" ++ toString i, "s" ++ toString i),
    emails := fun _ => ∅,
    mbox_sfx := "mbox",
    baseurl := "http://pw" }

/-- Concrete patches for position `i` of the two-patch series. -/
def pfun0c1 : Nat → PatchRpc :=
  fun i => { id := i, name := "P" ++ toString i, msgid := "x",
             submitter_id := 0, date := "2018-01-01 00:00:00" }

/-- Object summary the REST patch loop builds for one kept patch. -/
def rest_obj (sfx burl : String) (p : PatchJson) : ObjectSummary :=
  ObjectSummary.mk (join_with_slash burl ["patch", toString p.id]) sfx
    p.date (some p.id)

/-- Skip predicate matching exactly the patch name `BAD`. -/
def skip_bad : String → Bool := fun n => n = "BAD"

/-- Concrete mbox header fetch results for the REST counterexample. -/
def hdr0 : Nat → String × String :=
  fun i => ("m" ++ toString i, "s" ++ toString i)

/-- Concrete e-mail sets for the REST counterexample. -/
def em0 : Nat → Finset String := fun _ => ∅

/-- A received-all series whose first patch name matches the skip pattern
and whose second does not. -/
def series_bad : SeriesJson :=
  { id := 7, name := "good series", received_all := true,
    cover_letter := none,
    patches := [{ id := 1, name := "BAD", date := "2018-01-01" },
                { id := 2, name := "ok patch", date := "2018-01-02" }] }

/-- Concrete polling environment for the XML-RPC half of the amended C4
statement: position 1 of the two-patch series carries the skip-matched name
`BADP`, position 2 the clean name `Q2`. -/
def env0c4 : PW1Env :=
  { skip := fun n => n = "BADP",
    parse_pos := fun n =>
      if n = "BADP" then some (1, 2)
      else if n = "Q2" then some (2, 2)
      else none,
    mid_frag := fun _ => some "sidY",
    hdr := fun i => ("m" ++ toString i, "s" ++ toString i),
    emails := fun _ => ∅,
    mbox_sfx := "mbox",
    baseurl := "http://pw" }

/-- Concrete patches for the XML-RPC half of the amended C4 statement. -/
def pfun0c4 : Nat → PatchRpc :=
  fun i => { id := i, name := if i = 1 then "BADP" else "Q" ++ toString i,
             msgid := "x", submitter_id := 0, date := "2018-01-01 00:00:00" }

/-- C2, counterexample: a completed job with overall status UNSTABLE, every
"run" step status in {PASSED, FIXED}, and a nonzero recorded baseline-retest
return code is classified ERROR by `get_result`, not BASELINE_FAILURE — the
classifier never consults `get_baseretcode`. -/
theorem get_result_baseline_failure_cx :
    build_unstable_baseretcode.status = "UNSTABLE" ∧
    (∀ s ∈ data_list_status build_unstable_baseretcode "skt.cmd_run",
      s = "PASSED" ∨ s = "FIXED") ∧
    get_baseretcode build_unstable_baseretcode = some 1 ∧
    get_result build_unstable_baseretcode ≠ TestResult.BASELINE_FAILURE ∧
    get_result build_unstable_baseretcode = TestResult.ERROR := by
  refine ⟨rfl, ?_, rfl, ?_, rfl⟩
  · decide
  · decide

/-- C2, amended: for every completed job whose overall status is UNSTABLE,
whose every "run" step status is in {PASSED, FIXED}, and whose merge and
build steps have no FAILED or REGRESSION status, `get_result` returns ERROR
regardless of the baseline-retest return code, which is never consulted. -/
theorem get_result_unstable_clean_is_error (b : BuildInfo)
    (hs : b.status = "UNSTABLE")
    (hrun : ∀ s ∈ data_list_status b "skt.cmd_run", s = "PASSED" ∨ s = "FIXED")
    (hmerge : step_failed b "skt.cmd_merge" = false)
    (hbuild : step_failed b "skt.cmd_build" = false) :
    get_result b = TestResult.ERROR := by
  have hrunf : step_failed b "skt.cmd_run" = false := by
    simp only [step_failed, List.any_eq_false]
    intro s hsmem
    rcases hrun s hsmem with h | h <;> simp [h]
  simp [get_result, hs, hmerge, hbuild, hrunf]

/-- C2, witness for the amended theorem at the concrete UNSTABLE build with
clean steps and baseline-retest code 1. -/
theorem get_result_unstable_clean_is_error_witness :
    get_baseretcode build_unstable_baseretcode = some 1 ∧
    get_result build_unstable_baseretcode = TestResult.ERROR :=
  ⟨rfl, get_result_unstable_clean_is_error build_unstable_baseretcode rfl
    (by decide) (by decide) (by decide)⟩

/-- C7, counterexample: a completed job whose overall status is FAILURE (not
SUCCESS) and whose merge step is FAILED is classified ERROR, not
MERGE_FAILURE — `get_result` inspects the merge/build/run steps only when the
overall status is UNSTABLE. -/
theorem get_result_failure_merge_cx :
    build_failure_merge_failed.status ≠ "SUCCESS" ∧
    step_failed build_failure_merge_failed "skt.cmd_merge" = true ∧
    get_result build_failure_merge_failed ≠ TestResult.MERGE_FAILURE ∧
    get_result build_failure_merge_failed = TestResult.ERROR := by
  refine ⟨?_, by decide, ?_, rfl⟩
  · decide
  · decide

/-- C7, amended: for every completed job whose overall status is UNSTABLE and
whose merge step has a FAILED or REGRESSION status, `get_result` returns
MERGE_FAILURE even if the build and run steps also failed; steps are
inspected in the fixed order merge, build, run. -/
theorem get_result_unstable_merge_failed (b : BuildInfo)
    (hs : b.status = "UNSTABLE")
    (hm : step_failed b "skt.cmd_merge" = true) :
    get_result b = TestResult.MERGE_FAILURE := by
  simp [get_result, hs, hm]

/-- C7, witness for the amended theorem: an UNSTABLE build whose merge, build
and run steps all FAILED is classified MERGE_FAILURE. -/
theorem get_result_unstable_merge_failed_witness :
    step_failed build_unstable_all_failed "skt.cmd_build" = true ∧
    step_failed build_unstable_all_failed "skt.cmd_run" = true ∧
    get_result build_unstable_all_failed = TestResult.MERGE_FAILURE :=
  ⟨by decide, by decide,
    get_result_unstable_merge_failed build_unstable_all_failed rfl (by decide)⟩

/-- Auxiliary: `find?` over an append searches the left part first. -/
theorem find?_append {α} (p : α → Bool) (l1 l2 : List α) :
    (l1 ++ l2).find? p = ((l1.find? p).orElse fun _ => l2.find? p) := by
  induction l1 with
  | nil => rfl
  | cons x xs ih =>
      by_cases hx : p x
      · simp [List.find?, hx]
      · have hx' : p x = false := Bool.eq_false_iff.mpr hx
        simp [List.find?, hx', ih]

/-- Auxiliary: `pick_latest` returns `none` exactly on the empty join. -/
theorem pick_latest_eq_none (l : List (BaselineRow × TestrunRow)) :
    pick_latest l = none ↔ l = [] := by
  cases l <;> simp [pick_latest]

/-- Auxiliary: `get_repoid` only touches the `baserepo` table. -/
theorem get_repoid_testrun (db : Db) (repo : String) :
    ((get_repoid db repo).1).testrun = db.testrun := by
  cases h : db.baserepo.find? (fun r => r.url = repo) <;> simp [get_repoid, h]

/-- Auxiliary: `get_repoid` preserves the `baseline` table. -/
theorem get_repoid_baseline (db : Db) (repo : String) :
    ((get_repoid db repo).1).baseline = db.baseline := by
  cases h : db.baserepo.find? (fun r => r.url = repo) <;> simp [get_repoid, h]

/-- Auxiliary: `get_repoid` preserves the `next_testrun_id` counter. -/
theorem get_repoid_next_testrun (db : Db) (repo : String) :
    ((get_repoid db repo).1).next_testrun_id = db.next_testrun_id := by
  cases h : db.baserepo.find? (fun r => r.url = repo) <;> simp [get_repoid, h]

/-- Auxiliary: after `get_repoid`, the repo URL resolves by lookup to the id
just returned. -/
theorem get_repoid_find (db : Db) (repo : String) :
    ((get_repoid db repo).1).baserepo.find? (fun r => r.url = repo)
      = some { id := (get_repoid db repo).2, url := repo } := by
  cases h : db.baserepo.find? (fun r => r.url = repo) with
  | none =>
      simp only [get_repoid, h]
      rw [find?_append, h]
      simp
  | some r =>
      have hr : r.url = repo := by
        have := List.find?_some h
        simpa using this
      simp only [get_repoid, h]
      cases r
      simp_all

/-- Auxiliary: a successful repo lookup makes `get_repoid` a pure read. -/
theorem get_repoid_of_find (db : Db) (repo : String) (r : RepoRow)
    (h : db.baserepo.find? (fun x => x.url = repo) = some r) :
    get_repoid db repo = (db, r.id) := by
  simp [get_repoid, h]

/-- Auxiliary: `get_repoid` is idempotent. -/
theorem get_repoid_idem (db : Db) (repo : String) :
    get_repoid ((get_repoid db repo).1) repo
      = ((get_repoid db repo).1, (get_repoid db repo).2) :=
  get_repoid_of_find _ _ _ (get_repoid_find db repo)

/-- Auxiliary: `find?` misses every test run whose id is below a bound. -/
theorem find?_testrun_fresh (l : List TestrunRow) (bound tid : Nat)
    (hl : ∀ t ∈ l, t.id < bound) (hge : bound ≤ tid) :
    l.find? (fun t => t.id = tid) = none := by
  rw [List.find?_eq_none]
  intro t ht
  have := hl t ht
  simp only [decide_eq_true_eq]
  omega

/-- Auxiliary: when the stored baseline result is absent and the store is
well formed, no baseline row matches the (repo, commit) pair at all. -/
theorem no_matching_baseline (db : Db) (repo hash : String) (hWF : DbWF db)
    (hnone : stored_result db repo hash = none) :
    ∀ x ∈ db.baseline,
      ¬(x.commitid = hash ∧ x.baserepo_id = (get_repoid db repo).2) := by
  have hb := get_repoid_baseline db repo
  have ht := get_repoid_testrun db repo
  unfold stored_result get_baselineresult at hnone
  cases hE : get_repoid db repo with
  | mk dbA rid =>
      rw [hE] at hnone hb ht
      simp only at hnone hb ht ⊢
      rw [Option.map_eq_none', pick_latest_eq_none] at hnone
      unfold baseline_join at hnone
      rw [List.filterMap_eq_nil_iff] at hnone
      intro x hx hmatch
      have hxf : x ∈ dbA.baseline.filter
          (fun r => decide (r.commitid = hash ∧ r.baserepo_id = rid)) := by
        rw [List.mem_filter]
        exact ⟨hb ▸ hx, by simp [hmatch.1, hmatch.2]⟩
      have hfm := hnone x hxf
      rw [Option.map_eq_none', List.find?_eq_none] at hfm
      obtain ⟨t, htmem, htid⟩ := hWF.baseline_ref x hx
      exact hfm t (ht ▸ htmem) (by simp [htid])

/-- Auxiliary: `get_repoid` ignores updates of the test-run fields when the
repo URL is already registered. -/
theorem get_repoid_update_of_find (db : Db) (repo : String) (r : RepoRow)
    (tr : List TestrunRow) (n : Nat)
    (h : db.baserepo.find? (fun x => x.url = repo) = some r) :
    get_repoid { db with testrun := tr, next_testrun_id := n } repo
      = ({ db with testrun := tr, next_testrun_id := n }, r.id) := by
  simp [get_repoid, h]

/-- Auxiliary: when no baseline row matches the (repo, commit) pair,
`update_baseline` commits a fresh test run and inserts a baseline row
referencing it. -/
theorem update_baseline_no_row_shape (db : Db) (repo hash : String)
    (d : Int) (r : TestResult) (b : Nat)
    (hno : ∀ x ∈ db.baseline,
      ¬(x.commitid = hash ∧ x.baserepo_id = (get_repoid db repo).2)) :
    update_baseline db repo hash d r b =
      { (get_repoid db repo).1 with
          testrun := db.testrun ++
            [{ id := db.next_testrun_id, result_id := r.value, build_id := b }],
          next_testrun_id := db.next_testrun_id + 1,
          baseline := db.baseline ++
            [{ baserepo_id := (get_repoid db repo).2, commitid := hash,
               commitdate := d, testrun_id := db.next_testrun_id }] } := by
  cases hE : get_repoid db repo with
  | mk dbA rid =>
      have hb := get_repoid_baseline db repo
      have ht := get_repoid_testrun db repo
      have hn := get_repoid_next_testrun db repo
      have hfind0 := get_repoid_find db repo
      rw [hE] at hb ht hn hno hfind0
      simp only at hb ht hn hno hfind0 ⊢
      have hfilter : dbA.baseline.filter
          (fun x => x.commitid = hash ∧ x.baserepo_id = rid) = [] := by
        rw [List.filter_eq_nil_iff]
        intro x hx
        simpa using hno x (hb ▸ hx)
      unfold update_baseline
      rw [hE]
      simp only [commit_testrun, get_baselineresult]
      rw [get_repoid_update_of_find dbA repo _ _ _ hfind0]
      simp only [baseline_join, hfilter, List.filterMap_nil, pick_latest,
        Option.map_none']
      rw [hb, ht, hn]

/-- Auxiliary: the stored result for a (repo, commit) pair whose baseline
table has exactly one matching row, linked to test run `T`, is `T`'s
result. -/
theorem stored_result_one_row (db : Db) (repo hash : String)
    (l0 : List BaselineRow) (B : BaselineRow) (T : TestrunRow)
    (hsplit : db.baseline = l0 ++ [B])
    (hno : ∀ x ∈ l0,
      ¬(x.commitid = hash ∧ x.baserepo_id = (get_repoid db repo).2))
    (hBc : B.commitid = hash) (hBr : B.baserepo_id = (get_repoid db repo).2)
    (hfind : db.testrun.find? (fun t => t.id = B.testrun_id) = some T) :
    stored_result db repo hash = some T.result_id := by
  cases hE : get_repoid db repo with
  | mk dbA rid =>
      have hb := get_repoid_baseline db repo
      have ht := get_repoid_testrun db repo
      rw [hE] at hb ht hno hBr
      simp only at hb ht hno hBr
      have hfilter : dbA.baseline.filter
          (fun x => x.commitid = hash ∧ x.baserepo_id = rid) = [B] := by
        rw [hb, hsplit, List.filter_append]
        have h0 : l0.filter
            (fun x => x.commitid = hash ∧ x.baserepo_id = rid) = [] := by
          rw [List.filter_eq_nil_iff]
          intro x hx
          simpa using hno x hx
        rw [h0]
        simp [hBc, hBr]
      unfold stored_result get_baselineresult
      rw [hE]
      simp only [baseline_join, hfilter, ht, List.filterMap_cons,
        List.filterMap_nil, hfind, Option.map_some', pick_latest,
        List.foldl_nil]

/-- Auxiliary: shape of `update_baseline` when the baseline table holds
exactly one row matching the (repo, commit) pair, linked to test run `T` of
the test-run table as extended by the fresh commit: the row is redirected to
the fresh test run when the new result is numerically greater than or equal
to `T`'s, and left alone otherwise; the fresh test run is committed either
way. -/
theorem update_baseline_one_row_shape (db : Db) (repo hash : String)
    (d : Int) (r : TestResult) (b : Nat)
    (l0 : List BaselineRow) (B : BaselineRow) (T : TestrunRow)
    (hsplit : db.baseline = l0 ++ [B])
    (hno : ∀ x ∈ l0,
      ¬(x.commitid = hash ∧ x.baserepo_id = (get_repoid db repo).2))
    (hBc : B.commitid = hash) (hBr : B.baserepo_id = (get_repoid db repo).2)
    (hfind : (db.testrun ++
        [({ id := db.next_testrun_id, result_id := r.value,
            build_id := b } : TestrunRow)]).find?
          (fun t => t.id = B.testrun_id) = some T) :
    update_baseline db repo hash d r b =
      if r.value ≥ T.result_id then
        { (get_repoid db repo).1 with
            testrun := db.testrun ++
              [{ id := db.next_testrun_id, result_id := r.value, build_id := b }],
            next_testrun_id := db.next_testrun_id + 1,
            baseline := l0 ++ [{ B with testrun_id := db.next_testrun_id }] }
      else
        { (get_repoid db repo).1 with
            testrun := db.testrun ++
              [{ id := db.next_testrun_id, result_id := r.value, build_id := b }],
            next_testrun_id := db.next_testrun_id + 1 } := by
  cases hE : get_repoid db repo with
  | mk dbA rid =>
      have hb := get_repoid_baseline db repo
      have ht := get_repoid_testrun db repo
      have hn := get_repoid_next_testrun db repo
      have hfind0 := get_repoid_find db repo
      rw [hE] at hb ht hn hno hBr hfind0
      simp only at hb ht hn hno hBr hfind0 ⊢
      rw [← ht, ← hn] at hfind
      have hfilter : dbA.baseline.filter
          (fun x => x.commitid = hash ∧ x.baserepo_id = rid) = [B] := by
        rw [hb, hsplit, List.filter_append]
        have h0 : l0.filter
            (fun x => x.commitid = hash ∧ x.baserepo_id = rid) = [] := by
          rw [List.filter_eq_nil_iff]
          intro x hx
          simpa using hno x hx
        rw [h0]
        simp [hBc, hBr]
      have hl0 : ∀ x ∈ l0,
          (if x.commitid = hash ∧ x.baserepo_id = rid then
            { x with testrun_id := dbA.next_testrun_id } else x) = x := by
        intro x hx
        rw [if_neg (hno x hx)]
      unfold update_baseline
      rw [hE]
      simp only [commit_testrun, get_baselineresult]
      rw [get_repoid_update_of_find dbA repo _ _ _ hfind0]
      simp only [baseline_join, hfilter, List.filterMap_cons,
        List.filterMap_nil, hfind, Option.map_some', pick_latest,
        List.foldl_nil]
      by_cases hr : r.value ≥ T.result_id
      · rw [if_pos hr, if_pos hr]
        rw [hb, hsplit, List.map_append, List.map_congr_left hl0]
        simp [hBc, hBr, ht, hn]
      · rw [if_neg hr, if_neg hr]
        rw [ht, hn]

/-- C3: for every repo, commit pair and results R1 then R2, starting from a
well-formed store with no baseline row for the pair, the first
`update_baseline` call always inserts (stored result becomes R1 whatever it
is), and after the second call the stored result is R2 when R2 is numerically
greater than or equal to R1 (equal results also overwrite) and stays R1
otherwise. -/
theorem update_baseline_latest_wins (db : Db) (repo hash : String)
    (d1 d2 : Int) (r1 r2 : TestResult) (b1 b2 : Nat)
    (hWF : DbWF db)
    (hnone : stored_result db repo hash = none) :
    stored_result (update_baseline db repo hash d1 r1 b1) repo hash
        = some r1.value ∧
    stored_result
        (update_baseline (update_baseline db repo hash d1 r1 b1)
          repo hash d2 r2 b2) repo hash
        = some (if r2.value ≥ r1.value then r2.value else r1.value) := by
  have hno := no_matching_baseline db repo hash hWF hnone
  have h1 := update_baseline_no_row_shape db repo hash d1 r1 b1 hno
  set u1 := update_baseline db repo hash d1 r1 b1 with hu1def
  have hb1 : u1.baseline
      = db.baseline ++
        [({ baserepo_id := (get_repoid db repo).2, commitid := hash,
            commitdate := d1, testrun_id := db.next_testrun_id } :
          BaselineRow)] := by
    rw [h1]
  have ht1 : u1.testrun
      = db.testrun ++
        [({ id := db.next_testrun_id, result_id := r1.value,
            build_id := b1 } : TestrunRow)] := by
    rw [h1]
  have hn1 : u1.next_testrun_id = db.next_testrun_id + 1 := by
    rw [h1]
  have hfind1 : u1.baserepo.find? (fun x => x.url = repo)
      = some { id := (get_repoid db repo).2, url := repo } := by
    rw [h1]
    exact get_repoid_find db repo
  have hE1 := get_repoid_of_find _ repo _ hfind1
  simp only at hE1
  have hfindT1 : (db.testrun ++
      [({ id := db.next_testrun_id, result_id := r1.value,
          build_id := b1 } : TestrunRow)]).find?
        (fun t => t.id = db.next_testrun_id)
      = some { id := db.next_testrun_id, result_id := r1.value,
               build_id := b1 } := by
    rw [find?_append, find?_testrun_fresh db.testrun db.next_testrun_id
      db.next_testrun_id hWF.testrun_lt (le_refl _)]
    simp [List.find?]
  have hno1 : ∀ x ∈ db.baseline,
      ¬(x.commitid = hash ∧ x.baserepo_id = (get_repoid u1 repo).2) := by
    rw [hE1]
    exact hno
  have hfindT1' : ((db.testrun ++
      [({ id := db.next_testrun_id, result_id := r1.value,
          build_id := b1 } : TestrunRow)]) ++
      [({ id := db.next_testrun_id + 1, result_id := r2.value,
          build_id := b2 } : TestrunRow)]).find?
        (fun t => t.id = db.next_testrun_id)
      = some { id := db.next_testrun_id, result_id := r1.value,
               build_id := b1 } := by
    rw [find?_append, hfindT1]
    rfl
  have hfind2 : (u1.testrun ++
      [({ id := u1.next_testrun_id, result_id := r2.value,
          build_id := b2 } : TestrunRow)]).find?
        (fun t => t.id = db.next_testrun_id)
      = some { id := db.next_testrun_id, result_id := r1.value,
               build_id := b1 } := by
    rw [ht1, hn1]
    exact hfindT1'
  have h2 := update_baseline_one_row_shape u1 repo hash d2 r2 b2
    db.baseline _ _ hb1 hno1 rfl (by rw [hE1]) hfind2
  have hg1 : (get_repoid u1 repo).1 = u1 := by rw [hE1]
  constructor
  · refine stored_result_one_row u1 repo hash db.baseline _
      ({ id := db.next_testrun_id, result_id := r1.value,
         build_id := b1 } : TestrunRow) hb1 hno1 rfl
      (by rw [hE1]) ?_
    rw [ht1]
    exact hfindT1
  · by_cases hr : r2.value ≥ r1.value
    · rw [if_pos hr] at h2
      rw [if_pos hr]
      have hb2 : (update_baseline u1 repo hash d2 r2 b2).baseline
          = db.baseline ++
            [({ baserepo_id := (get_repoid db repo).2, commitid := hash,
                commitdate := d1,
                testrun_id := db.next_testrun_id + 1 } : BaselineRow)] := by
        rw [h2, hn1, hE1]
      have ht2 : (update_baseline u1 repo hash d2 r2 b2).testrun
          = (db.testrun ++
              [({ id := db.next_testrun_id, result_id := r1.value,
                  build_id := b1 } : TestrunRow)]) ++
            [({ id := db.next_testrun_id + 1, result_id := r2.value,
                build_id := b2 } : TestrunRow)] := by
        rw [h2, ht1, hn1]
      have hfind2' : (update_baseline u1 repo hash d2 r2 b2).baserepo.find?
          (fun x => x.url = repo)
          = some { id := (get_repoid db repo).2, url := repo } := by
        rw [h2, hg1]
        exact hfind1
      have hE2 := get_repoid_of_find _ repo _ hfind2'
      simp only at hE2
      have hno2 : ∀ x ∈ db.baseline,
          ¬(x.commitid = hash ∧ x.baserepo_id =
            (get_repoid (update_baseline u1 repo hash d2 r2 b2) repo).2) := by
        rw [hE2]
        exact hno
      refine stored_result_one_row _ repo hash db.baseline _
        ({ id := db.next_testrun_id + 1, result_id := r2.value,
           build_id := b2 } : TestrunRow) hb2 hno2 rfl
        (by rw [hE2]) ?_
      rw [ht2, find?_append, find?_append,
        find?_testrun_fresh db.testrun db.next_testrun_id
          (db.next_testrun_id + 1) hWF.testrun_lt (Nat.le_succ _)]
      simp [List.find?]
    · rw [if_neg hr] at h2
      rw [if_neg hr]
      have hb2 : (update_baseline u1 repo hash d2 r2 b2).baseline
          = db.baseline ++
            [({ baserepo_id := (get_repoid db repo).2, commitid := hash,
                commitdate := d1,
                testrun_id := db.next_testrun_id } : BaselineRow)] := by
        rw [h2, hg1]
        exact hb1
      have ht2 : (update_baseline u1 repo hash d2 r2 b2).testrun
          = (db.testrun ++
              [({ id := db.next_testrun_id, result_id := r1.value,
                  build_id := b1 } : TestrunRow)]) ++
            [({ id := db.next_testrun_id + 1, result_id := r2.value,
                build_id := b2 } : TestrunRow)] := by
        rw [h2, ht1, hn1]
      have hfind2' : (update_baseline u1 repo hash d2 r2 b2).baserepo.find?
          (fun x => x.url = repo)
          = some { id := (get_repoid db repo).2, url := repo } := by
        rw [h2, hg1]
        exact hfind1
      have hE2 := get_repoid_of_find _ repo _ hfind2'
      simp only at hE2
      have hno2 : ∀ x ∈ db.baseline,
          ¬(x.commitid = hash ∧ x.baserepo_id =
            (get_repoid (update_baseline u1 repo hash d2 r2 b2) repo).2) := by
        rw [hE2]
        exact hno
      refine stored_result_one_row _ repo hash db.baseline _
        ({ id := db.next_testrun_id, result_id := r1.value,
           build_id := b1 } : TestrunRow) hb2 hno2 rfl
        (by rw [hE2]) ?_
      rw [ht2]
      exact hfindT1'

/-- Auxiliary: `filterMap` only depends on the function's values on
members. -/
theorem filterMap_congr_mem {α β : Type} (f g : α → Option β) (l : List α)
    (h : ∀ a ∈ l, f a = g a) : l.filterMap f = l.filterMap g := by
  induction l with
  | nil => rfl
  | cons x xs ih =>
      simp only [List.filterMap_cons, h x (by simp)]
      cases g x <;> simp [ih fun a ha => h a (by simp [ha])]

/-- Auxiliary: the baseline/test-run join only reads the `baseline` and
`testrun` tables. -/
theorem baseline_join_eq_of (db1 db2 : Db) (rid : Nat) (hash : String)
    (hbl : db1.baseline = db2.baseline)
    (h : ∀ r ∈ db2.baseline,
      db1.testrun.find? (fun t => t.id = r.testrun_id)
        = db2.testrun.find? (fun t => t.id = r.testrun_id)) :
    baseline_join db1 rid hash = baseline_join db2 rid hash := by
  unfold baseline_join
  rw [hbl]
  exact filterMap_congr_mem _ _ _
    (fun a ha => by rw [h a (List.mem_filter.mp ha).1])

/-- Auxiliary: appending a test run does not perturb a lookup that already
succeeds on the original table. -/
theorem find?_testrun_ext (l : List TestrunRow) (T : TestrunRow) (i : Nat)
    (h : ∃ t ∈ l, t.id = i) :
    (l ++ [T]).find? (fun t => t.id = i) = l.find? (fun t => t.id = i) := by
  cases hf : l.find? (fun t => t.id = i) with
  | none =>
      exfalso
      obtain ⟨t, htm, hti⟩ := h
      exact (List.find?_eq_none.mp hf t htm) (by simp [hti])
  | some t' =>
      rw [find?_append, hf]
      rfl

/-- Auxiliary: the stored result is insensitive to the repo-id side effect of
`get_repoid`. -/
theorem stored_result_repoid (db : Db) (repo hash : String) :
    stored_result ((get_repoid db repo).1) repo hash
      = stored_result db repo hash := by
  cases hE : get_repoid db repo with
  | mk dbA rid =>
      have hid := get_repoid_idem db repo
      rw [hE] at hid
      simp only at hid ⊢
      unfold stored_result get_baselineresult
      rw [hE, hid]

/-- Auxiliary: committing a fresh test run before the baseline lookup leaves
the looked-up result unchanged, for a store whose baseline rows all reference
live test runs and whose repo URL is registered. -/
theorem get_baselineresult_extend_reg (db : Db) (repo hash : String)
    (rrow : RepoRow) (T : TestrunRow) (n : Nat)
    (hfind : db.baserepo.find? (fun x => x.url = repo) = some rrow)
    (href : ∀ row ∈ db.baseline, ∃ t ∈ db.testrun, t.id = row.testrun_id) :
    get_baselineresult
        { db with testrun := db.testrun ++ [T], next_testrun_id := n }
        repo hash
      = ({ db with testrun := db.testrun ++ [T], next_testrun_id := n },
         stored_result db repo hash) := by
  have hjoin := baseline_join_eq_of
    ({ db with testrun := db.testrun ++ [T], next_testrun_id := n }) db
    rrow.id hash rfl
    (fun row hm => find?_testrun_ext db.testrun T row.testrun_id (href row hm))
  unfold get_baselineresult stored_result get_baselineresult
  rw [get_repoid_update_of_find db repo rrow _ _ hfind,
    get_repoid_of_find db repo rrow hfind]
  simp only
  rw [hjoin]

/-- C10: every `update_baseline` call appends a test-run row, and in the
rejected-update case (a stored result strictly numerically better than the
new one) the baseline table is untouched and no baseline row references the
freshly inserted test run. -/
theorem update_baseline_always_inserts_testrun (db : Db) (repo hash : String)
    (d : Int) (r : TestResult) (b : Nat) (hWF : DbWF db) :
    (update_baseline db repo hash d r b).testrun
      = db.testrun ++
        [{ id := db.next_testrun_id, result_id := r.value, build_id := b }] ∧
    (∀ prev, stored_result db repo hash = some prev → r.value < prev →
      (update_baseline db repo hash d r b).baseline = db.baseline ∧
      ∀ row ∈ (update_baseline db repo hash d r b).baseline,
        row.testrun_id ≠ db.next_testrun_id) := by
  cases hE : get_repoid db repo with
  | mk dbA rid =>
      have ht := get_repoid_testrun db repo
      have hn := get_repoid_next_testrun db repo
      have hb := get_repoid_baseline db repo
      have hfind0 := get_repoid_find db repo
      rw [hE] at ht hn hb hfind0
      simp only at ht hn hb hfind0
      have href : ∀ row ∈ dbA.baseline,
          ∃ t ∈ dbA.testrun, t.id = row.testrun_id := by
        rw [hb, ht]
        exact hWF.baseline_ref
      have hsr : stored_result dbA repo hash = stored_result db repo hash := by
        have h0 := stored_result_repoid db repo hash
        rw [hE] at h0
        simpa using h0
      have hext := get_baselineresult_extend_reg dbA repo hash _
        ({ id := dbA.next_testrun_id, result_id := r.value,
           build_id := b } : TestrunRow)
        (dbA.next_testrun_id + 1) hfind0 href
      unfold update_baseline
      rw [hE]
      simp only [commit_testrun]
      rw [hext, hsr]
      constructor
      · cases hP : stored_result db repo hash with
        | none =>
            simp only
            rw [ht, hn]
        | some prev =>
            by_cases hge : r.value ≥ prev
            · simp only [if_pos hge]
              rw [ht, hn]
            · simp only [if_neg hge]
              rw [ht, hn]
      · intro prev hprev hlt
        rw [hprev]
        have hge : ¬ r.value ≥ prev := by omega
        simp only [if_neg hge]
        constructor
        · exact hb
        · intro row hrow
          obtain ⟨t, htm, hti⟩ := href row hrow
          have := hWF.testrun_lt t (ht ▸ htm)
          omega

/-- C3, witness: from a fresh store, committing TEST_FAILURE and then SUCCESS
for the same repo and commit stores TEST_FAILURE first and keeps it, since
SUCCESS is numerically smaller. -/
theorem update_baseline_latest_wins_witness :
    stored_result Db.empty "r" "c" = none ∧
    stored_result (update_baseline Db.empty "r" "c" 5 TestResult.TEST_FAILURE 1)
        "r" "c" = some TestResult.TEST_FAILURE.value ∧
    stored_result
        (update_baseline
          (update_baseline Db.empty "r" "c" 5 TestResult.TEST_FAILURE 1)
          "r" "c" 6 TestResult.SUCCESS 2) "r" "c"
      = some (if TestResult.SUCCESS.value ≥ TestResult.TEST_FAILURE.value then
          TestResult.SUCCESS.value else TestResult.TEST_FAILURE.value) := by
  have h := update_baseline_latest_wins Db.empty "r" "c" 5 6
    TestResult.TEST_FAILURE TestResult.SUCCESS 1 2
    ⟨by decide, by decide⟩ (by decide)
  exact ⟨by decide, h.1, h.2⟩

/-- C10, witness: with TEST_FAILURE stored for the commit, a strictly better
SUCCESS run still appends a test-run row while leaving the baseline table
unchanged. -/
theorem update_baseline_always_inserts_testrun_witness :
    (update_baseline
        (update_baseline Db.empty "r" "c" 5 TestResult.TEST_FAILURE 1)
        "r" "c" 6 TestResult.SUCCESS 2).testrun
      = (update_baseline Db.empty "r" "c" 5 TestResult.TEST_FAILURE 1).testrun ++
        [{ id := (update_baseline Db.empty "r" "c" 5
              TestResult.TEST_FAILURE 1).next_testrun_id,
           result_id := TestResult.SUCCESS.value, build_id := 2 }] ∧
    (update_baseline
        (update_baseline Db.empty "r" "c" 5 TestResult.TEST_FAILURE 1)
        "r" "c" 6 TestResult.SUCCESS 2).baseline
      = (update_baseline Db.empty "r" "c" 5 TestResult.TEST_FAILURE 1).baseline := by
  have h := update_baseline_always_inserts_testrun
    (update_baseline Db.empty "r" "c" 5 TestResult.TEST_FAILURE 1)
    "r" "c" 6 TestResult.SUCCESS 2 ⟨by decide, by decide⟩
  exact ⟨h.1, (h.2 TestResult.TEST_FAILURE.value (by decide) (by decide)).1⟩

/-- Auxiliary: `get_sourceid` leaves the pending-patches table unchanged. -/
theorem get_sourceid_pendingpatches (db : Db) (u : String) (p : Nat) :
    ((get_sourceid db u p).1).pendingpatches = db.pendingpatches := by
  cases h : db.patchsource.find?
      (fun s => s.baseurl = u ∧ s.project_id = p) <;>
    simp only [get_sourceid, h]

/-- Auxiliary: `get_sourceid` only ever appends a fresh patch-source row. -/
theorem get_sourceid_shape (db : Db) (u : String) (p : Nat) :
    (∃ r, db.patchsource.find?
        (fun s => s.baseurl = u ∧ s.project_id = p) = some r ∧
      get_sourceid db u p = (db, r.id)) ∨
    (db.patchsource.find?
        (fun s => s.baseurl = u ∧ s.project_id = p) = none ∧
      get_sourceid db u p =
        ({ db with
            patchsource := db.patchsource ++
              [{ id := db.next_patchsource_id, baseurl := u,
                 project_id := p }],
            next_patchsource_id := db.next_patchsource_id + 1 },
         db.next_patchsource_id)) := by
  cases h : db.patchsource.find?
      (fun s => s.baseurl = u ∧ s.project_id = p) with
  | none => exact Or.inr ⟨rfl, by simp only [get_sourceid, h]⟩
  | some r => exact Or.inl ⟨r, rfl, by simp only [get_sourceid, h]⟩

/-- Auxiliary: `set_patchset_pending` of a single patch replaces any row
with its id, keyed on the id alone, and appends the new row. -/
theorem set_patchset_pending_single (db : Db) (u : String) (p : Nat)
    (pid : Nat) (d : String) (ts : Int) :
    (set_patchset_pending db u p [(pid, d)] ts).pendingpatches
      = db.pendingpatches.filter (fun r => ¬ r.id = pid) ++
        [{ id := pid, pdate := d,
           patchsource_id := (get_sourceid db u p).2, timestamp := ts }] := by
  cases hS : get_sourceid db u p with
  | mk db' sid =>
      have hp := get_sourceid_pendingpatches db u p
      rw [hS] at hp
      simp only at hp ⊢
      unfold set_patchset_pending
      rw [hS]
      simp only [List.foldl_cons, List.foldl_nil, insert_or_replace_pending,
        hp]

/-- Auxiliary: `set_patchset_pending` carries the patch-source table of the
store threaded through `get_sourceid`. -/
theorem set_patchset_pending_patchsource (db : Db) (u : String) (p : Nat)
    (sd : List (Nat × String)) (ts : Int) :
    (set_patchset_pending db u p sd ts).patchsource
      = ((get_sourceid db u p).1).patchsource ∧
    (set_patchset_pending db u p sd ts).next_patchsource_id
      = ((get_sourceid db u p).1).next_patchsource_id := by
  cases hS : get_sourceid db u p with
  | mk db' sid =>
      unfold set_patchset_pending
      rw [hS]
      exact ⟨rfl, rfl⟩

/-- C6, counterexample: 50000 seconds after a patch was set pending — more
than 12 hours (43200 s) but less than 24 hours — the call with the threshold
argument omitted returns nothing, while a 12-hour threshold would return the
patch: the source's default expiry is `exptime=86400` (24 hours), not
43200. -/
theorem get_expired_default_cx :
    (get_expired_pending_patches db_pending_example "url" 1 50000).2 = [] ∧
    (get_expired_pending_patches db_pending_example "url" 1 50000 43200).2
      = [101] ∧
    (get_expired_pending_patches db_pending_example "url" 1 50000).2
      = (get_expired_pending_patches db_pending_example "url" 1 50000 86400).2 := by
  refine ⟨by decide, by decide, rfl⟩

/-- C6, amended: `get_expired_pending_patches` returns exactly the ids of the
pending rows of the given source whose insertion timestamp is strictly older
than `now` minus the threshold, and an omitted threshold argument defaults to
24 hours (86400 seconds), not 12. -/
theorem get_expired_pending_patches_spec (db : Db) (u : String) (p : Nat)
    (now T : Int) :
    (get_expired_pending_patches db u p now).2
      = (get_expired_pending_patches db u p now 86400).2 ∧
    ∀ x, x ∈ (get_expired_pending_patches db u p now T).2 ↔
      ∃ row ∈ db.pendingpatches, row.id = x ∧
        row.patchsource_id = (get_sourceid db u p).2 ∧
        row.timestamp < now - T := by
  refine ⟨rfl, ?_⟩
  intro x
  cases hE : get_sourceid db u p with
  | mk db' sid =>
      have hp := get_sourceid_pendingpatches db u p
      rw [hE] at hp
      simp only at hp ⊢
      unfold get_expired_pending_patches
      rw [hE]
      simp only [List.mem_map, List.mem_filter, hp, decide_eq_true_eq]
      constructor
      · rintro ⟨row, ⟨hm, hpred⟩, hid⟩
        exact ⟨row, hm, hid, hpred⟩
      · rintro ⟨row, hm, hid, hpred⟩
        exact ⟨row, ⟨hm, hpred⟩, hid⟩

/-- C9: the pending table holds at most one record per patch ID across all
sources — marking patch `pid` pending under a second, different source
(`u2`, `p2`) leaves exactly one row with that id, carrying the second
source's id, silently deleting the record made under the first source (whose
source id is different). -/
theorem set_patchset_pending_single_row_per_id
    (db : Db) (u1 u2 : String) (p1 p2 : Nat) (pid : Nat) (d1 d2 : String)
    (ts1 ts2 : Int) (hWF : SrcWF db) (hne : ¬(u1 = u2 ∧ p1 = p2)) :
    ((set_patchset_pending (set_patchset_pending db u1 p1 [(pid, d1)] ts1)
        u2 p2 [(pid, d2)] ts2).pendingpatches.filter
      (fun r => r.id = pid))
      = [{ id := pid, pdate := d2,
           patchsource_id :=
             (get_sourceid (set_patchset_pending db u1 p1 [(pid, d1)] ts1)
               u2 p2).2,
           timestamp := ts2 }] ∧
    (get_sourceid db u1 p1).2
      ≠ (get_sourceid (set_patchset_pending db u1 p1 [(pid, d1)] ts1)
          u2 p2).2 := by
  constructor
  · rw [set_patchset_pending_single
      (set_patchset_pending db u1 p1 [(pid, d1)] ts1) u2 p2 pid d2 ts2,
      List.filter_append]
    have h0 : (((set_patchset_pending db u1 p1 [(pid, d1)]
          ts1).pendingpatches.filter (fun r => ¬ r.id = pid)).filter
        (fun r => r.id = pid)) = [] := by
      rw [List.filter_eq_nil_iff]
      intro a ha
      have h2 := (List.mem_filter.mp ha).2
      simp only [decide_not, Bool.not_eq_true', decide_eq_false_iff_not] at h2
      simp [h2]
    rw [h0]
    simp
  · have hps := (set_patchset_pending_patchsource db u1 p1 [(pid, d1)] ts1).1
    have hpn := (set_patchset_pending_patchsource db u1 p1 [(pid, d1)] ts1).2
    rcases get_sourceid_shape db u1 p1 with ⟨r1, hf1, hg1⟩ | ⟨hf1, hg1⟩
    · -- source of (u1, p1) already registered as row r1
      rw [hg1] at hps hpn
      simp only at hps hpn
      have hr1mem := List.mem_of_find?_eq_some hf1
      have hr1p : r1.baseurl = u1 ∧ r1.project_id = p1 := by
        have := List.find?_some hf1
        simpa using this
      rcases get_sourceid_shape
          (set_patchset_pending db u1 p1 [(pid, d1)] ts1) u2 p2 with
        ⟨r2, hf2, hg2⟩ | ⟨hf2, hg2⟩
      · have hr2mem := List.mem_of_find?_eq_some hf2
        rw [hps] at hr2mem
        have hr2p : r2.baseurl = u2 ∧ r2.project_id = p2 := by
          have := List.find?_some hf2
          simpa using this
        intro heq
        rw [hg1, hg2] at heq
        simp only at heq
        have hr12 := List.inj_on_of_nodup_map hWF.nodup hr1mem hr2mem heq
        rw [hr12] at hr1p
        exact hne ⟨hr1p.1 ▸ hr2p.1.symm ▸ rfl, by omega⟩
      · intro heq
        rw [hg1, hg2] at heq
        simp only at heq
        have hlt := hWF.lt r1 hr1mem
        rw [hpn] at heq
        omega
    · -- source of (u1, p1) freshly created
      rw [hg1] at hps hpn
      simp only at hps hpn
      rcases get_sourceid_shape
          (set_patchset_pending db u1 p1 [(pid, d1)] ts1) u2 p2 with
        ⟨r2, hf2, hg2⟩ | ⟨hf2, hg2⟩
      · have hr2mem := List.mem_of_find?_eq_some hf2
        rw [hps] at hr2mem
        have hr2p : r2.baseurl = u2 ∧ r2.project_id = p2 := by
          have := List.find?_some hf2
          simpa using this
        intro heq
        rw [hg1, hg2] at heq
        simp only at heq
        rcases List.mem_append.mp hr2mem with hold | hnew
        · have hlt := hWF.lt r2 hold
          omega
        · rw [List.mem_singleton] at hnew
          rw [hnew] at hr2p
          simp only at hr2p
          exact hne ⟨hr2p.1, hr2p.2⟩
      · intro heq
        rw [hg1, hg2] at heq
        simp only at heq
        rw [hpn] at heq
        omega

/-- C9, witness: concrete replacement of a pending record across two
different sources on a fresh store. -/
theorem set_patchset_pending_single_row_per_id_witness :
    ((set_patchset_pending (set_patchset_pending Db.empty "a" 1 [(5, "d1")] 0)
        "b" 2 [(5, "d2")] 1).pendingpatches.filter (fun r => r.id = 5))
      = [{ id := 5, pdate := "d2",
           patchsource_id :=
             (get_sourceid (set_patchset_pending Db.empty "a" 1 [(5, "d1")] 0)
               "b" 2).2,
           timestamp := 1 }] ∧
    (get_sourceid Db.empty "a" 1).2
      ≠ (get_sourceid (set_patchset_pending Db.empty "a" 1 [(5, "d1")] 0)
          "b" 2).2 :=
  set_patchset_pending_single_row_per_id Db.empty "a" "b" 1 2 5 "d1" "d2" 0 1
    ⟨by decide, by decide⟩ (by decide)

/-- C5: evaluation at the failing input — even though the baseline commit
was already tested for the repo (a stored baseline result exists),
`check_baseline` still submits a build and appends it to the outstanding
list as kind BASELINE with source `none`; nothing in the function consults
the database. -/
theorem check_baseline_always_appends :
    stored_result watcher_already_tested.db watcher_already_tested.baserepo
        watcher_already_tested.baseref = some TestResult.SUCCESS.value ∧
    (check_baseline watcher_already_tested 7).pj
      = watcher_already_tested.pj ++ [(JType.BASELINE, 7, none)] ∧
    (check_baseline watcher_already_tested 7).pj
      ≠ watcher_already_tested.pj := by
  refine ⟨by decide, rfl, by decide⟩

/-- Auxiliary: on a list whose every series gets exit status 0 or 1, the
filter loop partitions the list in order onto the accumulators. -/
theorem filter_patchsets_go_clean (call : List String → Int) (pf : String)
    (l : List SeriesSummary)
    (h : ∀ s ∈ l, call (filter_argv pf s) = 0 ∨ call (filter_argv pf s) = 1) :
    ∀ ready dropped, filter_patchsets_go call pf l ready dropped
      = Except.ok
          (ready ++ l.filter (fun s => call (filter_argv pf s) = 0),
           dropped ++ l.filter (fun s => call (filter_argv pf s) = 1)) := by
  induction l with
  | nil => intro r d; simp [filter_patchsets_go]
  | cons s rest ih =>
      intro r d
      have hrest : ∀ x ∈ rest,
          call (filter_argv pf x) = 0 ∨ call (filter_argv pf x) = 1 :=
        fun x hx => h x (by simp [hx])
      rcases h s (by simp) with h0 | h1
      · simp only [filter_patchsets_go, h0]
        norm_num
        rw [ih hrest]
        simp [h0, List.filter_cons]
      · have hne0 : ¬ call (filter_argv pf s) = 0 := by omega
        simp only [filter_patchsets_go, h1]
        norm_num
        rw [ih hrest]
        simp [h1, List.filter_cons]

/-- Auxiliary: the filter loop aborts at the first series whose exit status
is neither 0 nor 1, with the error chosen by the 127 / negative / other
cascade. -/
theorem filter_patchsets_go_error (call : List String → Int) (pf : String)
    (l1 : List SeriesSummary) (s : SeriesSummary) (l2 : List SeriesSummary)
    (h : ∀ x ∈ l1, call (filter_argv pf x) = 0 ∨ call (filter_argv pf x) = 1)
    (hs0 : ¬ call (filter_argv pf s) = 0)
    (hs1 : ¬ call (filter_argv pf s) = 1) :
    ∀ ready dropped,
      filter_patchsets_go call pf (l1 ++ s :: l2) ready dropped
      = (if call (filter_argv pf s) = 127 then
          Except.error (s!"Filter command {cmd_str (filter_argv pf s)} failed")
        else if call (filter_argv pf s) < 0 then
          Except.error (s!"Filter command {cmd_str (filter_argv pf s)} was terminated by signal {(-(call (filter_argv pf s)))}")
        else
          Except.error (s!"Filter command {cmd_str (filter_argv pf s)} returned invalid status {call (filter_argv pf s)}")) := by
  induction l1 with
  | nil =>
      intro r d
      simp only [List.nil_append, filter_patchsets_go, cmd_str, if_neg hs0,
        if_neg hs1]
  | cons x l1' ih =>
      intro r d
      have hrest : ∀ y ∈ l1',
          call (filter_argv pf y) = 0 ∨ call (filter_argv pf y) = 1 :=
        fun y hy => h y (by simp [hy])
      rcases h x (by simp) with h0 | h1x
      · simp only [List.cons_append, filter_patchsets_go, h0]
        norm_num
        exact ih hrest _ _
      · have hne0 : ¬ call (filter_argv pf x) = 0 := by omega
        simp only [List.cons_append, filter_patchsets_go, h1x]
        norm_num
        exact ih hrest _ _

/-- C8: with no filter program path configured, every series is ready and
none dropped; with a path configured, each series is invoked on its argument
vector (patch mbox URLs positionally, the cover letter via `--cover`), exit
status 0 keeps the series and 1 drops it, preserving order, while 127, a
negative status (signal termination), and any other nonzero status each
abort with their own distinct error message at the first offending
series. -/
theorem filter_patchsets_spec :
    (∀ (call : List String → Int) (l : List SeriesSummary),
      filter_patchsets none call l = Except.ok (l, [])) ∧
    (∀ (pf : String) (call : List String → Int) (l : List SeriesSummary),
      (∀ s ∈ l, call (filter_argv pf s) = 0 ∨ call (filter_argv pf s) = 1) →
      filter_patchsets (some pf) call l
        = Except.ok (l.filter (fun s => call (filter_argv pf s) = 0),
            l.filter (fun s => call (filter_argv pf s) = 1))) ∧
    (∀ (pf : String) (call : List String → Int) (l1 : List SeriesSummary)
        (s : SeriesSummary) (l2 : List SeriesSummary),
      (∀ x ∈ l1, call (filter_argv pf x) = 0 ∨ call (filter_argv pf x) = 1) →
      call (filter_argv pf s) = 127 →
      filter_patchsets (some pf) call (l1 ++ s :: l2)
        = Except.error (s!"Filter command {cmd_str (filter_argv pf s)} failed")) ∧
    (∀ (pf : String) (call : List String → Int) (l1 : List SeriesSummary)
        (s : SeriesSummary) (l2 : List SeriesSummary),
      (∀ x ∈ l1, call (filter_argv pf x) = 0 ∨ call (filter_argv pf x) = 1) →
      call (filter_argv pf s) < 0 →
      filter_patchsets (some pf) call (l1 ++ s :: l2)
        = Except.error (s!"Filter command {cmd_str (filter_argv pf s)} was terminated by signal {(-(call (filter_argv pf s)))}")) ∧
    (∀ (pf : String) (call : List String → Int) (l1 : List SeriesSummary)
        (s : SeriesSummary) (l2 : List SeriesSummary),
      (∀ x ∈ l1, call (filter_argv pf x) = 0 ∨ call (filter_argv pf x) = 1) →
      call (filter_argv pf s) ≠ 0 → call (filter_argv pf s) ≠ 1 →
      call (filter_argv pf s) ≠ 127 → ¬ call (filter_argv pf s) < 0 →
      filter_patchsets (some pf) call (l1 ++ s :: l2)
        = Except.error (s!"Filter command {cmd_str (filter_argv pf s)} returned invalid status {call (filter_argv pf s)}")) := by
  refine ⟨?_, ?_, ?_, ?_, ?_⟩
  · intro call l
    rfl
  · intro pf call l h
    rw [show filter_patchsets (some pf) call l
        = filter_patchsets_go call pf l [] [] from rfl,
      filter_patchsets_go_clean call pf l h]
    simp
  · intro pf call l1 s l2 h h127
    rw [show filter_patchsets (some pf) call (l1 ++ s :: l2)
        = filter_patchsets_go call pf (l1 ++ s :: l2) [] [] from rfl,
      filter_patchsets_go_error call pf l1 s l2 h (by omega) (by omega)]
    rw [if_pos h127]
  · intro pf call l1 s l2 h hneg
    rw [show filter_patchsets (some pf) call (l1 ++ s :: l2)
        = filter_patchsets_go call pf (l1 ++ s :: l2) [] [] from rfl,
      filter_patchsets_go_error call pf l1 s l2 h (by omega) (by omega)]
    rw [if_neg (by omega), if_pos hneg]
  · intro pf call l1 s l2 h h0 h1 h127 hneg
    rw [show filter_patchsets (some pf) call (l1 ++ s :: l2)
        = filter_patchsets_go call pf (l1 ++ s :: l2) [] [] from rfl,
      filter_patchsets_go_error call pf l1 s l2 h h0 h1]
    rw [if_neg h127, if_neg hneg]

/-- C8, witness: each branch of `filter_patchsets_spec` at concrete
inputs. -/
theorem filter_patchsets_spec_witness :
    filter_patchsets none call0 [series_a] = Except.ok ([series_a], []) ∧
    filter_patchsets (some "filt") call0 [series_a]
      = Except.ok
          ([series_a].filter (fun s => call0 (filter_argv "filt" s) = 0),
           [series_a].filter (fun s => call0 (filter_argv "filt" s) = 1)) ∧
    filter_patchsets (some "filt") call127 ([] ++ series_a :: [])
      = Except.error (s!"Filter command {cmd_str argv_a} failed") ∧
    filter_patchsets (some "filt") callsig ([] ++ series_a :: [])
      = Except.error (s!"Filter command {cmd_str argv_a} was terminated by signal {(-(callsig argv_a))}") ∧
    filter_patchsets (some "filt") call3 ([] ++ series_a :: [])
      = Except.error (s!"Filter command {cmd_str argv_a} returned invalid status {call3 argv_a}") :=
  ⟨filter_patchsets_spec.1 call0 [series_a],
   filter_patchsets_spec.2.1 "filt" call0 [series_a]
     (fun s _ => Or.inl rfl),
   filter_patchsets_spec.2.2.1 "filt" call127 [] series_a []
     (by simp) rfl,
   filter_patchsets_spec.2.2.2.1 "filt" callsig [] series_a []
     (by simp) (by decide),
   filter_patchsets_spec.2.2.2.2 "filt" call3 [] series_a []
     (by simp) (by decide) (by decide) (by decide) (by decide)⟩

/-- Auxiliary: looking up the key just set yields the new value. -/
theorem aget_aset_same {κ α : Type} [DecidableEq κ] (k : κ) (v : α)
    (l : List (κ × α)) : aget k (aset k v l) = some v := by
  induction l with
  | nil => simp [aget, aset]
  | cons kv rest ih =>
      by_cases h : kv.1 = k
      · simp [aset, aget, h]
      · simp [aset, aget, h, ih]

/-- Auxiliary: setting an absent key appends the binding. -/
theorem aset_append_of_aget_none {κ α : Type} [DecidableEq κ] (k : κ)
    (v : α) (l : List (κ × α)) (h : aget k l = none) :
    aset k v l = l ++ [(k, v)] := by
  induction l with
  | nil => rfl
  | cons kv rest ih =>
      by_cases hk : kv.1 = k
      · simp [aget, hk] at h
      · simp only [aget, hk, if_neg] at h
        simp [aset, hk, ih h]

/-- Auxiliary: lookup in the association list of a key list under `pfun`
returns `pfun` of a present key. -/
theorem aget_assoc_map (pfun : Nat → PatchRpc) (k : Nat) (pre : List Nat)
    (h : k ∈ pre) :
    aget k (pre.map (fun i => (i, pfun i))) = some (pfun k) := by
  induction pre with
  | nil => cases h
  | cons i rest ih =>
      by_cases hik : i = k
      · subst hik
        simp [aget]
      · rcases List.mem_cons.mp h with h1 | h2
        · exact absurd h1.symm hik
        · simp [aget, hik, ih h2]

/-- Auxiliary: lookup of an absent key in the association list fails. -/
theorem aget_assoc_none (pfun : Nat → PatchRpc) (k : Nat) (pre : List Nat)
    (h : k ∉ pre) :
    aget k (pre.map (fun i => (i, pfun i))) = none := by
  induction pre with
  | nil => rfl
  | cons i rest ih =>
      have hik : i ≠ k := fun he => h (he ▸ List.mem_cons_self i rest)
      have hrest : k ∉ rest := fun hr => h (List.mem_cons_of_mem i hr)
      simp [aget, hik, ih hrest]

/-- Auxiliary: the emission fold appends exactly the patch summaries of its
key list, in order, when every key resolves. -/
theorem build_step_patch_list (env : PW1Env) (m : List (Nat × PatchRpc))
    (g : Nat → PatchRpc) (ks : List Nat)
    (h : ∀ k ∈ ks, aget k m = some (g k)) :
    ∀ acc : SeriesSummary,
      ((ks.foldl (build_step env m) acc).patch_list
        = acc.patch_list ++ ks.map (fun k => patch_obj_summary env (g k))) := by
  induction ks with
  | nil => intro acc; simp
  | cons k ks ih =>
      intro acc
      have hk := h k (by simp)
      have hrest : ∀ x ∈ ks, aget x m = some (g x) :=
        fun x hx => h x (by simp [hx])
      simp only [List.foldl_cons, build_step, hk]
      rw [ih hrest]
      simp

/-- Auxiliary: patch list of an emitted summary over the association list of
a key list: the summaries of the sorted keys in order. -/
theorem build_series_summary_patch_list (env : PW1Env)
    (covers : List (String × PatchRpc)) (sid : String) (pre : List Nat)
    (pfun : Nat → PatchRpc) :
    (build_series_summary env covers sid
        (pre.map (fun i => (i, pfun i)))).patch_list
      = (List.insertionSort (· ≤ ·) pre).map
          (fun k => patch_obj_summary env (pfun k)) := by
  unfold build_series_summary
  have hkeys : (pre.map (fun i => (i, pfun i))).map Prod.fst = pre := by
    induction pre with
    | nil => rfl
    | cons a l ih =>
        simp only [List.map_cons]
        rw [ih]
  rw [hkeys]
  rw [build_step_patch_list env _ pfun _ ?_ _]
  · simp
  · intro k hk
    have hmem : k ∈ pre := (List.perm_insertionSort _ pre).mem_iff.mp hk
    exact aget_assoc_map pfun k pre hmem

/-- Auxiliary: sorting a permutation of `[1, ..., N]` yields exactly
`[1, ..., N]`. -/
theorem insertionSort_perm_range (N : Nat) (pre : List Nat)
    (h : pre.Perm (List.range' 1 N)) :
    List.insertionSort (· ≤ ·) pre = List.range' 1 N := by
  haveI : IsAntisymm Nat (· ≤ ·) := ⟨fun a b h1 h2 => Nat.le_antisymm h1 h2⟩
  exact List.eq_of_perm_of_sorted ((List.perm_insertionSort _ pre).trans h)
    (List.sorted_insertionSort _ pre)
    ((List.pairwise_lt_range' 1 N).imp (fun hlt => Nat.le_of_lt hlt))

/-- Auxiliary: `bump_lastpatch` only touches `lastpatch`. -/
theorem bump_lastpatch_series (st : PW1State) (pid : Nat) :
    (bump_lastpatch st pid).series = st.series ∧
    (bump_lastpatch st pid).covers = st.covers := by
  unfold bump_lastpatch
  split <;> exact ⟨rfl, rfl⟩

/-- Auxiliary: effect of `parse_patch` on a non-skipped patch carrying
series position `i` of `N` (with `1 ≤ i ≤ N`) whose position is not yet
present in its series: the patch is entered at its position and the series
is emitted exactly when the position count reaches `N`. -/
theorem parse_patch_insert (env : PW1Env) (st : PW1State) (p : PatchRpc)
    (i N : Nat) (sid : String) (cur : List (Nat × PatchRpc))
    (hskip : env.skip p.name = false)
    (hpos : env.parse_pos p.name = some (i, N))
    (hsid : derived_seriesid env p N = sid)
    (hi1 : 1 ≤ i) (hiN : i ≤ N)
    (hcur : (aget sid st.series).getD [] = cur)
    (hnew : aget i cur = none) :
    parse_patch env st p
      = (bump_lastpatch
          { st with series := aset sid (cur ++ [(i, p)]) st.series } p.id,
         if (cur ++ [(i, p)]).length = N then
           some (build_series_summary env st.covers sid (cur ++ [(i, p)]))
         else none) := by
  unfold parse_patch
  simp only [hskip, hpos, hsid, Bool.false_eq_true, if_false]
  rw [if_neg (by omega), if_pos ⟨hi1, hiN⟩, hcur, hnew]
  simp only [Option.isSome_none, Bool.false_eq_true, if_false]
  rw [aset_append_of_aget_none i p cur hnew]

/-- Auxiliary: a patch whose position is already present in its series is
skipped, leaving the state untouched. -/
theorem parse_patch_dup (env : PW1Env) (st : PW1State) (p : PatchRpc)
    (i N : Nat) (sid : String) (cur : List (Nat × PatchRpc))
    (hskip : env.skip p.name = false)
    (hpos : env.parse_pos p.name = some (i, N))
    (hsid : derived_seriesid env p N = sid)
    (hi1 : 1 ≤ i) (hiN : i ≤ N)
    (hcur : (aget sid st.series).getD [] = cur)
    (hdup : (aget i cur).isSome = true) :
    parse_patch env st p = (st, none) := by
  unfold parse_patch
  simp only [hskip, hpos, hsid, Bool.false_eq_true, if_false]
  rw [if_neg (by omega), if_pos ⟨hi1, hiN⟩, hcur, hdup]
  simp

/-- Auxiliary: a patch whose name matches a skip pattern only bumps the
maximum seen patch id. -/
theorem parse_patch_skip (env : PW1Env) (st : PW1State) (p : PatchRpc)
    (hskip : env.skip p.name = true) :
    parse_patch env st p = (bump_lastpatch st p.id, none) := by
  unfold parse_patch
  simp only [hskip, if_true]

/-- Auxiliary: unfolding one trailing step of `get_new_patchsets`. -/
theorem get_new_patchsets_snoc (env : PW1Env) (st0 : PW1State)
    (l : List PatchRpc) (p : PatchRpc) :
    get_new_patchsets env st0 (l ++ [p])
      = ((parse_patch env (get_new_patchsets env st0 l).1 p).1,
         match (parse_patch env (get_new_patchsets env st0 l).1 p).2 with
         | some s => (get_new_patchsets env st0 l).2 ++ [s]
         | none => (get_new_patchsets env st0 l).2) := by
  unfold get_new_patchsets
  rw [List.foldl_append]
  simp

/-- Auxiliary invariant of the polling fold over the patches of a single
series, processed in an arbitrary arrival order `pre` of distinct positions
within `1..N`: the series dictionary holds exactly the arrived positions (in
arrival order), the cover dictionary is untouched, and a summary is emitted
exactly when all `N` positions have arrived. -/
theorem get_new_patchsets_fold (env : PW1Env) (st0 : PW1State) (N : Nat)
    (sid : String) (pfun : Nat → PatchRpc)
    (hN : 1 ≤ N)
    (hskip : ∀ i ∈ List.range' 1 N, env.skip (pfun i).name = false)
    (hpos : ∀ i ∈ List.range' 1 N, env.parse_pos (pfun i).name = some (i, N))
    (hsid : ∀ i ∈ List.range' 1 N, derived_seriesid env (pfun i) N = sid)
    (hst0 : aget sid st0.series = none) :
    ∀ pre : List Nat, pre.Nodup → (∀ i ∈ pre, i ∈ List.range' 1 N) →
      pre.length ≤ N →
      ((aget sid ((get_new_patchsets env st0 (pre.map pfun)).1).series).getD []
        = pre.map (fun i => (i, pfun i)) ∧
      ((get_new_patchsets env st0 (pre.map pfun)).1).covers = st0.covers ∧
      (get_new_patchsets env st0 (pre.map pfun)).2
        = (if pre.length = N then
            [build_series_summary env st0.covers sid
              (pre.map (fun i => (i, pfun i)))]
          else [])) := by
  intro pre
  induction pre using List.reverseRecOn with
  | nil =>
      intro _ _ _
      refine ⟨?_, rfl, ?_⟩
      · simp [get_new_patchsets, hst0]
      · simp only [get_new_patchsets, List.map_nil, List.foldl_nil,
          List.length_nil]
        rw [if_neg (by omega)]
  | append_singleton pre i ih =>
      intro hnd hmem hlen
      obtain ⟨hndpre, _, hdisj⟩ := List.nodup_append.mp hnd
      have hinotin : i ∉ pre := fun hin => hdisj hin (by simp)
      have hmem' : ∀ x ∈ pre, x ∈ List.range' 1 N :=
        fun x hx => hmem x (by simp [hx])
      have hlen2 : pre.length + 1 ≤ N := by
        simpa using hlen
      obtain ⟨ih1, ih2, ih3⟩ := ih hndpre hmem' (by omega)
      have hiN : i ∈ List.range' 1 N := hmem i (by simp)
      have hib : 1 ≤ i ∧ i ≤ N := by
        have := List.mem_range'_1.mp hiN
        omega
      have hnewi : aget i ((aget sid
          ((get_new_patchsets env st0 (pre.map pfun)).1).series).getD [])
          = none := by
        rw [ih1]
        exact aget_assoc_none pfun i pre hinotin
      have hparse := parse_patch_insert env
        ((get_new_patchsets env st0 (pre.map pfun)).1) (pfun i) i N sid
        (pre.map (fun j => (j, pfun j)))
        (hskip i hiN) (hpos i hiN) (hsid i hiN) hib.1 hib.2 ih1
        (aget_assoc_none pfun i pre hinotin)
      have hmapsnoc : (pre.map (fun j => (j, pfun j))) ++ [(i, pfun i)]
          = (pre ++ [i]).map (fun j => (j, pfun j)) := by
        simp
      have hlensnoc : ((pre.map (fun j => (j, pfun j))) ++
          [(i, pfun i)]).length = pre.length + 1 := by
        simp
      rw [List.map_append, List.map_singleton, get_new_patchsets_snoc,
        hparse]
      refine ⟨?_, ?_, ?_⟩
      · rw [(bump_lastpatch_series _ _).1]
        simp only [aget_aset_same, Option.getD_some]
        exact hmapsnoc
      · rw [(bump_lastpatch_series _ _).2]
        exact ih2
      · rw [hmapsnoc, ih2]
        have hlen3 : ((pre ++ [i]).map (fun j => (j, pfun j))).length
            = (pre ++ [i]).length := by simp
        rw [hlen3, ih3, if_neg (show ¬ pre.length = N by omega)]
        by_cases hfull : (pre ++ [i]).length = N
        · rw [if_pos hfull, if_pos hfull]
          simp
        · rw [if_neg hfull, if_neg hfull]

/-- C1: for a declared series length `N ≥ 1` and any arrival order of the
`N` patches carrying positions `[1/N] .. [N/N]`, sharing the derived series
id `sid` and matching no skip pattern, the XML-RPC aggregator run by
`get_new_patchsets` emits the series exactly once — no proper prefix of the
arrival order emits anything, the whole order emits exactly one summary —
with the patch list ordered by declared position `1 .. N`; and afterwards any
further patch of the same series id with an in-range position is dropped
without emission. -/
theorem parse_patch_series_completes_once
    (env : PW1Env) (st0 : PW1State) (N : Nat) (sid : String)
    (pfun : Nat → PatchRpc)
    (hN : 1 ≤ N)
    (hskip : ∀ i ∈ List.range' 1 N, env.skip (pfun i).name = false)
    (hpos : ∀ i ∈ List.range' 1 N, env.parse_pos (pfun i).name = some (i, N))
    (hsid : ∀ i ∈ List.range' 1 N, derived_seriesid env (pfun i) N = sid)
    (hst0 : aget sid st0.series = none)
    (arr : List Nat) (harr : arr.Perm (List.range' 1 N)) :
    (get_new_patchsets env st0 (arr.map pfun)).2
      = [build_series_summary env st0.covers sid
          (arr.map (fun i => (i, pfun i)))] ∧
    ((get_new_patchsets env st0 (arr.map pfun)).2.map
        (fun ss => ss.patch_list.map (fun p => p.patch_id)))
      = [(List.range' 1 N).map (fun i => some (pfun i).id)] ∧
    (∀ pre, pre <+: arr → pre ≠ arr →
      (get_new_patchsets env st0 (pre.map pfun)).2 = []) ∧
    (∀ (p : PatchRpc) (j : Nat),
      env.skip p.name = false → env.parse_pos p.name = some (j, N) →
      derived_seriesid env p N = sid → 1 ≤ j → j ≤ N →
      (parse_patch env ((get_new_patchsets env st0 (arr.map pfun)).1) p).2
        = none) := by
  have hndarr : arr.Nodup := harr.nodup_iff.mpr (List.nodup_range' 1 N)
  have hmemarr : ∀ x ∈ arr, x ∈ List.range' 1 N :=
    fun x hx => harr.mem_iff.mp hx
  have hlenarr : arr.length = N := by
    rw [harr.length_eq, List.length_range']
  obtain ⟨f1, f2, f3⟩ := get_new_patchsets_fold env st0 N sid pfun hN hskip
    hpos hsid hst0 arr hndarr hmemarr (le_of_eq hlenarr)
  refine ⟨?_, ?_, ?_, ?_⟩
  · rw [f3, if_pos hlenarr]
  · rw [f3, if_pos hlenarr]
    simp only [List.map_cons, List.map_nil]
    rw [build_series_summary_patch_list env st0.covers sid arr pfun,
      insertionSort_perm_range N arr harr]
    simp [patch_obj_summary]
  · intro pre hpre hne
    have hlenpre : pre.length < N := by
      have hle := hpre.length_le
      rcases Nat.lt_or_ge pre.length arr.length with hlt | hge
      · omega
      · exact absurd (hpre.eq_of_length (by omega)) hne
    obtain ⟨g1, g2, g3⟩ := get_new_patchsets_fold env st0 N sid pfun hN hskip
      hpos hsid hst0 pre (hpre.sublist.nodup hndarr)
      (fun x hx => hmemarr x (hpre.subset hx)) (by omega)
    rw [g3, if_neg (by omega)]
  · intro p j hps hpp hpsid hj1 hjN
    have hj : j ∈ arr := harr.mem_iff.mpr
      (List.mem_range'_1.mpr ⟨hj1, by omega⟩)
    rw [parse_patch_dup env ((get_new_patchsets env st0 (arr.map pfun)).1) p
      j N sid (arr.map (fun i => (i, pfun i))) hps hpp hpsid hj1 hjN f1
      (by rw [aget_assoc_map pfun j arr hj]; rfl)]

/-- Auxiliary invariant of the polling fold when the patch at position `j`
of the series matches a skip pattern: the skipped position never enters the
series dictionary, so the position count stays below `N` and nothing is ever
emitted. -/
theorem get_new_patchsets_fold_skip (env : PW1Env) (st0 : PW1State) (N : Nat)
    (sid : String) (pfun : Nat → PatchRpc) (j : Nat)
    (hN : 1 ≤ N) (hjN : j ∈ List.range' 1 N)
    (hskipj : env.skip (pfun j).name = true)
    (hskip : ∀ i ∈ List.range' 1 N, i ≠ j → env.skip (pfun i).name = false)
    (hpos : ∀ i ∈ List.range' 1 N, i ≠ j →
      env.parse_pos (pfun i).name = some (i, N))
    (hsid : ∀ i ∈ List.range' 1 N, i ≠ j →
      derived_seriesid env (pfun i) N = sid)
    (hst0 : aget sid st0.series = none) :
    ∀ pre : List Nat, pre.Nodup → (∀ i ∈ pre, i ∈ List.range' 1 N) →
      ((aget sid ((get_new_patchsets env st0 (pre.map pfun)).1).series).getD []
        = (pre.filter (fun i => i ≠ j)).map (fun i => (i, pfun i)) ∧
      (get_new_patchsets env st0 (pre.map pfun)).2 = []) := by
  intro pre
  induction pre using List.reverseRecOn with
  | nil =>
      intro _ _
      exact ⟨by simp [get_new_patchsets, hst0], rfl⟩
  | append_singleton pre i ih =>
      intro hnd hmem
      obtain ⟨hndpre, _, hdisj⟩ := List.nodup_append.mp hnd
      have hinotin : i ∉ pre := fun hin => hdisj hin (by simp)
      have hmem' : ∀ x ∈ pre, x ∈ List.range' 1 N :=
        fun x hx => hmem x (by simp [hx])
      obtain ⟨ih1, ih2⟩ := ih hndpre hmem'
      have hiN : i ∈ List.range' 1 N := hmem i (by simp)
      rw [List.map_append, List.map_singleton, get_new_patchsets_snoc]
      by_cases hij : i = j
      · subst hij
        rw [parse_patch_skip env _ (pfun i) hskipj]
        refine ⟨?_, ih2⟩
        rw [(bump_lastpatch_series _ _).1, ih1]
        have : (pre ++ [i]).filter (fun x => x ≠ i)
            = pre.filter (fun x => x ≠ i) := by
          rw [List.filter_append]
          simp
        rw [this]
      · have hib : 1 ≤ i ∧ i ≤ N := by
          have := List.mem_range'_1.mp hiN
          omega
        have hinotf : i ∉ pre.filter (fun x => x ≠ j) :=
          fun hin => hinotin (List.mem_of_mem_filter hin)
        have hfsnoc : (pre ++ [i]).filter (fun x => x ≠ j)
            = pre.filter (fun x => x ≠ j) ++ [i] := by
          rw [List.filter_append]
          simp [hij]
        have hflen : ((pre ++ [i]).filter (fun x => x ≠ j)).length ≤ N - 1 := by
          have hndf : ((pre ++ [i]).filter (fun x => x ≠ j)).Nodup :=
            hnd.filter _
          have hsubf : ((pre ++ [i]).filter (fun x => x ≠ j))
              ⊆ (List.range' 1 N).filter (fun x => x ≠ j) := by
            intro x hx
            rw [List.mem_filter] at hx ⊢
            exact ⟨hmem x hx.1, hx.2⟩
          have hsp := (hndf.subperm hsubf).length_le
          have herase : ((List.range' 1 N).filter (fun x => x ≠ j)).length
              = N - 1 := by
            have hq : (List.range' 1 N).filter (fun x => x ≠ j)
                = (List.range' 1 N).erase j := by
              rw [(List.nodup_range' 1 N).erase_eq_filter j]
              apply List.filter_congr
              intro x _
              by_cases hxj : x = j
              · subst hxj
                simp
              · simp [hxj, bne_iff_ne]
            rw [hq, List.length_erase_of_mem hjN, List.length_range']
          omega
        have hcur2len : (pre.filter (fun x => x ≠ j)).length + 1 ≤ N - 1 := by
          have := hflen
          rw [hfsnoc] at this
          simpa using this
        have hparse := parse_patch_insert env
          ((get_new_patchsets env st0 (pre.map pfun)).1) (pfun i) i N sid
          ((pre.filter (fun x => x ≠ j)).map (fun x => (x, pfun x)))
          (hskip i hiN hij) (hpos i hiN hij) (hsid i hiN hij) hib.1 hib.2 ih1
          (aget_assoc_none pfun i _ hinotf)
        rw [hparse]
        have hlen4 : ((pre.filter (fun x => x ≠ j)).map
              (fun x => (x, pfun x)) ++ [(i, pfun i)]).length
            = (pre.filter (fun x => x ≠ j)).length + 1 := by
          simp
        rw [hlen4] at hparse ⊢
        rw [if_neg (by omega)]
        refine ⟨?_, ih2⟩
        rw [(bump_lastpatch_series _ _).1]
        simp only [aget_aset_same, Option.getD_some]
        rw [hfsnoc, List.map_append, List.map_singleton]

theorem parse_patch_series_completes_once_witness :
    (1 ≤ 2 ∧ aget "sidX" (⟨[], [], 0⟩ : PW1State).series = none ∧
      [2, 1].Perm (List.range' 1 2)) ∧
    ((get_new_patchsets env0c1 ⟨[], [], 0⟩ ([2, 1].map pfun0c1)).2.map
        (fun ss => ss.patch_list.map (fun p => p.patch_id)))
      = [(List.range' 1 2).map (fun i => some (pfun0c1 i).id)] :=
  ⟨⟨by decide, rfl, by decide⟩,
    (parse_patch_series_completes_once env0c1 ⟨[], [], 0⟩ 2 "sidX" pfun0c1
      (by decide) (by decide) (by decide) (by decide) rfl [2, 1]
      (by decide)).2.1⟩

/-- Auxiliary: the patch loop of the REST series construction appends
exactly the non-skip-matching patches, in order, as object summaries. -/
theorem series_patches_fold (skip : String → Bool)
    (hdr : Nat → String × String) (em : Nat → Finset String)
    (sfx burl : String) (plist : List PatchJson) :
    ∀ acc : SeriesSummary,
      (plist.foldl (series_patches_step skip hdr em sfx burl) acc).patch_list
        = acc.patch_list ++
          (plist.filter (fun p => skip p.name = false)).map
            (rest_obj sfx burl) := by
  induction plist with
  | nil =>
      intro acc
      simp
  | cons p rest ih =>
      intro acc
      rw [List.foldl_cons, ih]
      by_cases hp : skip p.name = true
      · rw [List.filter_cons]
        simp [series_patches_step, hp]
      · have hp' : skip p.name = false := Bool.eq_false_iff.mpr hp
        rw [List.filter_cons]
        simp [series_patches_step, hp', rest_obj]

/-- Auxiliary: emission behaviour of the REST construction on a single
received-all series whose own name matches no skip pattern: the summary
carries exactly the non-skip-matching patches and is emitted unless that
leaves it empty. -/
theorem series_from_data_single (skip : String → Bool)
    (hdr : Nat → String × String) (em : Nat → Finset String)
    (sfx burl : String) (s : SeriesJson)
    (hrecv : s.received_all = true) (hname : skip s.name = false) :
    (series_from_data skip hdr em sfx burl [s]).map
        (fun ss => ss.patch_list.map (fun p => p.patch_id))
      = if (s.patches.filter (fun p => skip p.name = false)).isEmpty then []
        else [(s.patches.filter (fun p => skip p.name = false)).map
          (fun p => some p.id)] := by
  have hfold := series_patches_fold skip hdr em sfx burl s.patches
  unfold series_from_data
  simp only [List.foldl_cons, List.foldl_nil]
  rw [if_neg (by simp [hrecv]), if_neg (by simp [hname])]
  rw [apply_ite (List.map
    (fun ss : SeriesSummary => ss.patch_list.map (fun p => p.patch_id)))]
  rw [hfold _, List.nil_append]
  have hie : ((s.patches.filter (fun p => skip p.name = false)).map
      (rest_obj sfx burl)).isEmpty
      = (s.patches.filter (fun p => skip p.name = false)).isEmpty := by
    cases s.patches.filter (fun p => skip p.name = false) <;> simp
  rw [hie]
  by_cases hF : (s.patches.filter (fun p => skip p.name = false)).isEmpty
  · rw [if_pos hF, if_pos hF]
    rfl
  · rw [if_neg hF, if_neg hF]
    rw [List.nil_append, List.map_singleton, hfold _, List.nil_append,
      List.map_map]
    rfl

/-- C4 counterexample: a series containing a skip-matched patch IS emitted
by the REST construction (`PatchworkV2Project.__get_series_from_url`) — the
matched patch is merely excluded from the summary, so the series comes out
with the remaining patch rather than being suppressed as the claim
states. -/
theorem series_from_data_skip_patch_cx :
    (∃ p ∈ series_bad.patches, skip_bad p.name = true) ∧
    (series_from_data skip_bad hdr0 em0 "mbox" "http://pw" [series_bad]).map
        (fun ss => ss.patch_list.map (fun p => p.patch_id))
      = [[some 2]] := by
  refine ⟨⟨⟨1, "BAD", "2018-01-01"⟩, by decide, by decide⟩, ?_⟩
  rfl

/-- C4 (amended): the two aggregators treat a skip-matched patch
differently.  In the XML-RPC aggregator (`PatchworkV1Project.__parse_patch`)
a series one of whose positions `j` carries a skip-matched name is indeed
never emitted, whatever the arrival order of its patches: the matched patch
is dropped before being counted, so the position count never reaches the
declared total.  In the REST construction
(`PatchworkV2Project.__get_series_from_url`), however, a received-all
series whose own name matches no skip pattern is NOT suppressed by
skip-matched member patches: those patches are merely excluded, and the
series is emitted with exactly its non-matching patches unless none
remain. -/
theorem skip_patch_exclusion_spec
    (env : PW1Env) (st0 : PW1State) (N : Nat) (sid : String)
    (pfun : Nat → PatchRpc) (j : Nat)
    (hN : 1 ≤ N) (hjN : j ∈ List.range' 1 N)
    (hskipj : env.skip (pfun j).name = true)
    (hskip : ∀ i ∈ List.range' 1 N, i ≠ j → env.skip (pfun i).name = false)
    (hpos : ∀ i ∈ List.range' 1 N, i ≠ j →
      env.parse_pos (pfun i).name = some (i, N))
    (hsid : ∀ i ∈ List.range' 1 N, i ≠ j →
      derived_seriesid env (pfun i) N = sid)
    (hst0 : aget sid st0.series = none)
    (skip : String → Bool) (hdr : Nat → String × String)
    (em : Nat → Finset String) (sfx burl : String) (s : SeriesJson)
    (hrecv : s.received_all = true) (hname : skip s.name = false) :
    (∀ arr : List Nat, arr.Perm (List.range' 1 N) →
      (get_new_patchsets env st0 (arr.map pfun)).2 = []) ∧
    ((series_from_data skip hdr em sfx burl [s]).map
        (fun ss => ss.patch_list.map (fun p => p.patch_id))
      = if (s.patches.filter (fun p => skip p.name = false)).isEmpty then []
        else [(s.patches.filter (fun p => skip p.name = false)).map
          (fun p => some p.id)]) := by
  constructor
  · intro arr harr
    exact (get_new_patchsets_fold_skip env st0 N sid pfun j hN hjN hskipj
      hskip hpos hsid hst0 arr (harr.nodup_iff.mpr (List.nodup_range' 1 N))
      (fun x hx => harr.mem_iff.mp hx)).2
  · exact series_from_data_single skip hdr em sfx burl s hrecv hname

theorem skip_patch_exclusion_spec_witness :
    (1 ≤ 2 ∧ (1 : Nat) ∈ List.range' 1 2 ∧
      env0c4.skip (pfun0c4 1).name = true ∧
      series_bad.received_all = true ∧ skip_bad series_bad.name = false) ∧
    (get_new_patchsets env0c4 ⟨[], [], 0⟩ ([2, 1].map pfun0c4)).2 = [] ∧
    ((series_from_data skip_bad hdr0 em0 "mbox" "http://pw" [series_bad]).map
        (fun ss => ss.patch_list.map (fun p => p.patch_id))
      = if (series_bad.patches.filter
            (fun p => skip_bad p.name = false)).isEmpty then []
        else [(series_bad.patches.filter
            (fun p => skip_bad p.name = false)).map (fun p => some p.id)]) := by
  have h := skip_patch_exclusion_spec env0c4 ⟨[], [], 0⟩ 2 "sidY" pfun0c4 1
    (by decide) (by decide) (by decide) (by decide) (by decide) (by decide)
    rfl skip_bad hdr0 em0 "mbox" "http://pw" series_bad (by decide)
    (by decide)
  exact ⟨⟨by decide, by decide, by decide, by decide, by decide⟩,
    h.1 [2, 1] (by decide), h.2⟩
